import Mathlib

/-!
Verification of the 16-bit register-machine emulator (src/main.c) against its
natural-language specification.

The C program is shallowly embedded: machine integers (`uint8_t`, `uint16_t`,
`uint32_t`) become `Nat` with explicit reductions `% 2 ^ 8`, `% 2 ^ 16`,
`% 2 ^ 32` exactly where C performs an implicit conversion or where the C
expression masks; C bitwise operators `&`, `|`, `^`, `<<`, `>>` become
`&&&`, `|||`, `^^^`, `<<<`, `>>>` on `Nat`.  The 1 MiB byte array `cpu->mem`
becomes a function `Nat → Nat`; every in-language access masks the index with
`ADDR_MASK` exactly as the C code does.  Raw-pointer accesses that the C code
performs *without* masking (the `printf("%s", ...)` terminator scans and the
`strcpy` into memory in `cpu_step`) are modelled with an explicit bounds check:
an access at an index `≥ 2 ^ 20` falls outside the allocated array and is
undefined behavior, rendered as `none`.  Console I/O is abstracted by a list of
input events consumed by `STDIN` and a list of output events produced by the
`printf` calls.
-/

namespace VM

/-- MEMORY_SIZE = 1 << 20 (1 MiB). -/
def MEMORY_SIZE : Nat := 2 ^ 20

/-- ADDR_MASK = 0xFFFFF, the 20-bit address mask. -/
def ADDR_MASK : Nat := 0xFFFFF

/-- FLAG_ZERO = 1 << 0. -/
def FLAG_ZERO : Nat := 1

/-- FLAG_SIGN = 1 << 1. -/
def FLAG_SIGN : Nat := 2

/-- FLAG_CARRY = 1 << 2. -/
def FLAG_CARRY : Nat := 4

/-- FLAG_OVERFLOW = 1 << 3. -/
def FLAG_OVERFLOW : Nat := 8

/-- The CPU state (struct CPU).  `regs` models `uint16_t regs[8]` (only indices
0–7 are ever used, since every decoded register field is masked with `0x7`);
`pc` and `sp` are the `uint32_t` program counter and stack pointer; `SR` models
the four dead segment registers; `flags` the `uint8_t` flag byte; `mem` the
byte array; `halted` the halt flag. -/
structure CPU where
  regs : Nat → Nat
  pc : Nat
  sp : Nat
  SR : Nat → Nat
  flags : Nat
  mem : Nat → Nat
  halted : Bool

/-- uint32_t subtraction `x - y` (two's-complement wraparound modulo 2^32). -/
def sub32 (x y : Nat) : Nat := (x + (2 ^ 32 - y % 2 ^ 32)) % 2 ^ 32

/-- mem_r8: `cpu->mem[addr & ADDR_MASK]`. -/
def mem_r8 (cpu : CPU) (addr : Nat) : Nat := cpu.mem (addr &&& ADDR_MASK)

/-- mem_w8: `cpu->mem[addr & ADDR_MASK] = value` (the `uint8_t` parameter
conversion is the `% 2 ^ 8`). -/
def mem_w8 (cpu : CPU) (addr value : Nat) : CPU :=
  { cpu with mem := fun i => if i = addr &&& ADDR_MASK then value % 2 ^ 8 else cpu.mem i }

/-- mem_r16: little-endian 16-bit read, `low | (high << 8)` cast to `uint16_t`;
the address of the high byte is `addr + 1` computed in `uint32_t`. -/
def mem_r16 (cpu : CPU) (addr : Nat) : Nat :=
  (mem_r8 cpu addr ||| mem_r8 cpu ((addr + 1) % 2 ^ 32) <<< 8) % 2 ^ 16

/-- mem_w16: little-endian 16-bit write, `value & 0xFF` then `(value >> 8) & 0xFF`. -/
def mem_w16 (cpu : CPU) (addr value : Nat) : CPU :=
  mem_w8 (mem_w8 cpu addr (value &&& 0xFF)) ((addr + 1) % 2 ^ 32) (value >>> 8 &&& 0xFF)

/-- stack_push16: `sp -= 2` then write the 16-bit value at the new `sp`. -/
def stack_push16 (cpu : CPU) (value : Nat) : CPU :=
  mem_w16 { cpu with sp := sub32 cpu.sp 2 } (sub32 cpu.sp 2) value

/-- stack_pop16: read the 16-bit value at `sp`, then `sp += 2`; returns the
value together with the updated CPU. -/
def stack_pop16 (cpu : CPU) : Nat × CPU :=
  (mem_r16 cpu cpu.sp, { cpu with sp := (cpu.sp + 2) % 2 ^ 32 })

/-- set_flag: `flags |= flag` or `flags &= ~flag` (on the 8-bit flag byte). -/
def set_flag (cpu : CPU) (flag : Nat) (value : Bool) : CPU :=
  { cpu with flags := if value then cpu.flags ||| flag else cpu.flags &&& (0xFF ^^^ flag) }

/-- get_flag: `(flags & flag) != 0`. -/
def get_flag (cpu : CPU) (flag : Nat) : Bool := cpu.flags &&& flag != 0

/-- update_flags: recompute Zero and Sign from a 16-bit result (the `uint16_t`
parameter conversion is the `% 2 ^ 16`). -/
def update_flags (cpu : CPU) (result : Nat) : CPU :=
  set_flag (set_flag cpu FLAG_ZERO (result % 2 ^ 16 == 0)) FLAG_SIGN
    (result % 2 ^ 16 &&& 0x8000 != 0)

/-- Write `cpu->regs[r] = value`; the assignment to a `uint16_t` array element
truncates modulo 2^16. -/
def set_reg (cpu : CPU) (r value : Nat) : CPU :=
  { cpu with regs := fun i => if i = r then value % 2 ^ 16 else cpu.regs i }

/-- An input event consumed by OP_STDIN: a line delivered by `fgets` (its raw
bytes, at most the buffer size, possibly ending in a newline), a decimal
integer successfully parsed by `scanf("%d", ...)`, or a `scanf` matching
failure. -/
inductive InEvent where
  | line : List Nat → InEvent
  | num : Int → InEvent
  | numFail : InEvent
deriving DecidableEq

/-- An output event produced by a `printf` in `cpu_step`: the halt message
(with the fetch address), a string (its bytes), a signed decimal number, a
single character, the unknown-opcode diagnostic (opcode and fetch address), or
the unknown-extended-opcode diagnostic. -/
inductive Output where
  | haltMsg : Nat → Output
  | str : List Nat → Output
  | num : Int → Output
  | ch : Nat → Output
  | unknownOp : Nat → Nat → Output
  | unknownExtOp : Nat → Output
deriving DecidableEq

/-- Fuel bound for the terminator scans; any scan either leaves the array or
finds a terminator within `MEMORY_SIZE` reads, so this fuel is never
exhausted. -/
def STRFUEL : Nat := MEMORY_SIZE + 1

/-- The terminator scan performed by `printf("%s", str)` on the raw pointer
`str` into the memory array at offset `a`: bytes are read at `a`, `a + 1`,
`a + 2`, … with no modular reduction, until a zero byte; a read at an offset
`≥ MEMORY_SIZE` is outside the allocated array (undefined behavior, `none`).
Returns the bytes before the terminator. -/
def cstr_scan (mem : Nat → Nat) (a : Nat) : Nat → Option (List Nat)
  | 0 => none
  | fuel + 1 =>
    if a < MEMORY_SIZE then
      if mem a = 0 then some []
      else
        match cstr_scan mem (a + 1) fuel with
        | none => none
        | some bs => some (mem a :: bs)
    else none

/-- The `strcpy((char *)(cpu->mem + addr), buf)` in the STDIN string mode:
writes the bytes and a final null terminator at `a`, `a + 1`, … with no
modular reduction; a write at an offset `≥ MEMORY_SIZE` is out of bounds
(undefined behavior, `none`). -/
def strcpy_mem (mem : Nat → Nat) (a : Nat) : List Nat → Option (Nat → Nat)
  | [] => if a < MEMORY_SIZE then some (fun i => if i = a then 0 else mem i) else none
  | b :: bs =>
    if a < MEMORY_SIZE then
      strcpy_mem (fun i => if i = a then b % 2 ^ 8 else mem i) (a + 1) bs
    else none

/-- The newline trim after `fgets`: if the buffer is nonempty and ends in a
newline, the newline is removed (overwritten by the terminator). -/
def trim_newline (bs : List Nat) : List Nat :=
  if bs.getLast? = some 10 then bs.dropLast else bs

/-- The `(int16_t)` cast composed with `printf("%d", ...)`: the register value
read as a signed 16-bit integer. -/
def to_int16 (v : Nat) : Int :=
  if v % 2 ^ 16 < 2 ^ 15 then (v % 2 ^ 16 : Nat) else (v % 2 ^ 16 : Nat) - 2 ^ 16

/-- OP_MOV: `regs[dst] = regs[src]`, then Zero/Sign from `regs[dst]`. -/
def step_mov (cpu : CPU) (dst src : Nat) : CPU :=
  let c := set_reg cpu dst (cpu.regs src)
  update_flags c (c.regs dst)

/-- The OP_MOVI sign extension: `(imm9 & 0x100) ? (imm9 | 0xFE00) : imm9`. -/
def sign_extend9 (imm9 : Nat) : Nat :=
  if imm9 &&& 0x100 != 0 then imm9 ||| 0xFE00 else imm9

/-- OP_MOVI: `regs[dst] = sign_extend9(imm9)`, then Zero/Sign from `regs[dst]`. -/
def step_movi (cpu : CPU) (dst imm9 : Nat) : CPU :=
  let c := set_reg cpu dst (sign_extend9 imm9)
  update_flags c (c.regs dst)

/-- OP_CMP: 32-bit subtraction without storing; Carry from the unsigned
compare, Zero/Sign from the truncated difference. -/
def step_cmp (cpu : CPU) (dst src : Nat) : CPU :=
  update_flags (set_flag cpu FLAG_CARRY (decide (cpu.regs dst < cpu.regs src)))
    (sub32 (cpu.regs dst) (cpu.regs src) &&& 0xFFFF)

/-- OP_POP: pop into `regs[dst]`, then Zero/Sign from `regs[dst]`. -/
def step_pop (cpu : CPU) (dst : Nat) : CPU :=
  let p := stack_pop16 cpu
  let c := set_reg p.2 dst p.1
  update_flags c (c.regs dst)

/-- OP_CALL: push the (already advanced) `pc`, low 16 bits first, then the
high 4 bits, then jump to `regs[dst] & ADDR_MASK`. -/
def step_call (cpu : CPU) (dst : Nat) : CPU :=
  let c1 := stack_push16 cpu (cpu.pc &&& 0xFFFF)
  let c2 := stack_push16 c1 (cpu.pc >>> 16 &&& 0xF)
  { c2 with pc := c2.regs dst &&& ADDR_MASK }

/-- EXT_ADD: 32-bit sum; Carry iff the sum exceeds 0xFFFF; Overflow iff both
operands have the same sign bit and the result's sign bit differs; store the
truncated sum; Zero/Sign from the stored result. -/
def step_ext_add (cpu : CPU) (r1 r2 : Nat) : CPU :=
  let result := (cpu.regs r1 + cpu.regs r2) % 2 ^ 32
  let c1 := set_flag cpu FLAG_CARRY (decide (0xFFFF < result))
  let r1s : Bool := cpu.regs r1 &&& 0x8000 != 0
  let r2s : Bool := cpu.regs r2 &&& 0x8000 != 0
  let rs : Bool := result &&& 0x8000 != 0
  let c2 := set_flag c1 FLAG_OVERFLOW ((r1s == r2s) && (r1s != rs))
  let c3 := set_reg c2 r1 (result &&& 0xFFFF)
  update_flags c3 (c3.regs r1)

/-- EXT_SUB: 32-bit difference; Carry iff `regs[r1] < regs[r2]` (unsigned
borrow); Overflow iff the operands' sign bits differ and the result's sign bit
differs from the first operand's; store the truncated difference; Zero/Sign
from the stored result. -/
def step_ext_sub (cpu : CPU) (r1 r2 : Nat) : CPU :=
  let result := sub32 (cpu.regs r1) (cpu.regs r2)
  let c1 := set_flag cpu FLAG_CARRY (decide (cpu.regs r1 < cpu.regs r2))
  let r1s : Bool := cpu.regs r1 &&& 0x8000 != 0
  let r2s : Bool := cpu.regs r2 &&& 0x8000 != 0
  let rs : Bool := result &&& 0x8000 != 0
  let c2 := set_flag c1 FLAG_OVERFLOW ((r1s != r2s) && (r1s != rs))
  let c3 := set_reg c2 r1 (result &&& 0xFFFF)
  update_flags c3 (c3.regs r1)

/-- EXT_AND: `regs[r1] &= regs[r2]`, then Zero/Sign. -/
def step_ext_and (cpu : CPU) (r1 r2 : Nat) : CPU :=
  let c := set_reg cpu r1 (cpu.regs r1 &&& cpu.regs r2)
  update_flags c (c.regs r1)

/-- EXT_OR: `regs[r1] |= regs[r2]`, then Zero/Sign. -/
def step_ext_or (cpu : CPU) (r1 r2 : Nat) : CPU :=
  let c := set_reg cpu r1 (cpu.regs r1 ||| cpu.regs r2)
  update_flags c (c.regs r1)

/-- EXT_XOR: `regs[r1] ^= regs[r2]`, then Zero/Sign. -/
def step_ext_xor (cpu : CPU) (r1 r2 : Nat) : CPU :=
  let c := set_reg cpu r1 (cpu.regs r1 ^^^ cpu.regs r2)
  update_flags c (c.regs r1)

/-- EXT_RET: pop the high nibble, pop the low word, reconstitute
`pc = (high << 16) | low`. -/
def step_ext_ret (cpu : CPU) : CPU :=
  let p1 := stack_pop16 cpu
  let p2 := stack_pop16 p1.2
  { p2.2 with pc := (p1.1 &&& 0xF) <<< 16 ||| p2.1 }

/-- EXT_LOAD: `regs[r1] = memory16[regs[r2]]`, then Zero/Sign. -/
def step_ext_load (cpu : CPU) (r1 r2 : Nat) : CPU :=
  let c := set_reg cpu r1 (mem_r16 cpu (cpu.regs r2))
  update_flags c (c.regs r1)

/-- EXT_STORE: `memory16[regs[r1]] = regs[r2]`, no flag update. -/
def step_ext_store (cpu : CPU) (r1 r2 : Nat) : CPU :=
  mem_w16 cpu (cpu.regs r1) (cpu.regs r2)

/-- The OP_EXT sub-dispatch: bits 9–11 select the extended opcode, bits 6–8
the first operand register, bits 3–5 the second; the `default` case halts with
the unknown-extended-opcode diagnostic. -/
def step_ext (cpu : CPU) (instr : Nat) (ins : List InEvent) :
    Option (CPU × List InEvent × List Output) :=
  if instr >>> 9 &&& 0x7 = 0x3 then
    some (step_ext_add cpu (instr >>> 6 &&& 0x7) (instr >>> 3 &&& 0x7), ins, [])
  else if instr >>> 9 &&& 0x7 = 0x4 then
    some (step_ext_sub cpu (instr >>> 6 &&& 0x7) (instr >>> 3 &&& 0x7), ins, [])
  else if instr >>> 9 &&& 0x7 = 0x5 then
    some (step_ext_and cpu (instr >>> 6 &&& 0x7) (instr >>> 3 &&& 0x7), ins, [])
  else if instr >>> 9 &&& 0x7 = 0x6 then
    some (step_ext_or cpu (instr >>> 6 &&& 0x7) (instr >>> 3 &&& 0x7), ins, [])
  else if instr >>> 9 &&& 0x7 = 0x7 then
    some (step_ext_xor cpu (instr >>> 6 &&& 0x7) (instr >>> 3 &&& 0x7), ins, [])
  else if instr >>> 9 &&& 0x7 = 0x0 then
    some (step_ext_ret cpu, ins, [])
  else if instr >>> 9 &&& 0x7 = 0x1 then
    some (step_ext_load cpu (instr >>> 6 &&& 0x7) (instr >>> 3 &&& 0x7), ins, [])
  else if instr >>> 9 &&& 0x7 = 0x2 then
    some (step_ext_store cpu (instr >>> 6 &&& 0x7) (instr >>> 3 &&& 0x7), ins, [])
  else
    some ({ cpu with halted := true }, ins, [Output.unknownExtOp (instr >>> 9 &&& 0x7)])

/-- OP_STDOUT.  `dst = 0`: print the string that follows the instruction (a
raw-pointer scan from the unmasked `pc`), advance `pc` past it and align to an
even address; `dst = 1`: print `regs[src]` as a signed decimal; `dst = 2`:
print the string at `regs[src] & ADDR_MASK` (raw-pointer scan from there);
`dst = 3`: print the low byte of `regs[src]` as a character. -/
def step_stdout (cpu : CPU) (dst src : Nat) (ins : List InEvent) :
    Option (CPU × List InEvent × List Output) :=
  if dst = 0 then
    match cstr_scan cpu.mem cpu.pc STRFUEL with
    | none => none
    | some bs =>
      some ({ cpu with pc :=
        (if ((cpu.pc + (bs.length + 1)) % 2 ^ 32) &&& 1 != 0 then
          ((cpu.pc + (bs.length + 1)) % 2 ^ 32 + 1) % 2 ^ 32
        else (cpu.pc + (bs.length + 1)) % 2 ^ 32) }, ins, [Output.str bs])
  else if dst = 1 then some (cpu, ins, [Output.num (to_int16 (cpu.regs src))])
  else if dst = 2 then
    match cstr_scan cpu.mem (cpu.regs src &&& ADDR_MASK) STRFUEL with
    | none => none
    | some bs => some (cpu, ins, [Output.str bs])
  else if dst = 3 then some (cpu, ins, [Output.ch (cpu.regs src &&& 0xFF)])
  else some (cpu, ins, [])

/-- The successful `scanf("%d", &value)` path of OP_STDIN:
`regs[src] = (uint16_t)value` and update Zero/Sign. -/
def step_stdin_num (cpu : CPU) (src : Nat) (v : Int) : CPU :=
  let c := set_reg cpu src (v % 2 ^ 16).toNat
  update_flags c (c.regs src)

/-- OP_STDIN.  `dst = 0`: read a line, trim a trailing newline, `strcpy` it to
`regs[src] & ADDR_MASK` (no effect if `fgets` fails); otherwise: read a
decimal integer into `regs[src]` (truncated to 16 bits) and update Zero/Sign,
or do nothing on a matching failure / end of input. -/
def step_stdin (cpu : CPU) (dst src : Nat) (ins : List InEvent) :
    Option (CPU × List InEvent × List Output) :=
  if dst = 0 then
    match ins with
    | InEvent.line bs :: rest =>
      match strcpy_mem cpu.mem (cpu.regs src &&& ADDR_MASK) (trim_newline bs) with
      | none => none
      | some m => some ({ cpu with mem := m }, rest, [])
    | _ => some (cpu, ins, [])
  else
    match ins with
    | InEvent.num v :: rest =>
      some (step_stdin_num cpu src v, rest, [])
    | InEvent.numFail :: rest => some (cpu, rest, [])
    | _ => some (cpu, ins, [])

/-- The switch over the top opcode nibble, applied to the post-fetch CPU state
and the fetched instruction word. -/
def step_instr (cpu : CPU) (instr : Nat) (ins : List InEvent) :
    Option (CPU × List InEvent × List Output) :=
  if instr >>> 12 &&& 0xF = 0x0 then
    some ({ cpu with halted := true }, ins, [Output.haltMsg (sub32 cpu.pc 2)])
  else if instr >>> 12 &&& 0xF = 0x1 then some (cpu, ins, [])
  else if instr >>> 12 &&& 0xF = 0x2 then
    some (step_mov cpu (instr >>> 9 &&& 0x7) (instr >>> 6 &&& 0x7), ins, [])
  else if instr >>> 12 &&& 0xF = 0x3 then
    some (step_movi cpu (instr >>> 9 &&& 0x7) (instr &&& 0x1FF), ins, [])
  else if instr >>> 12 &&& 0xF = 0x4 then
    some (step_cmp cpu (instr >>> 9 &&& 0x7) (instr >>> 6 &&& 0x7), ins, [])
  else if instr >>> 12 &&& 0xF = 0x5 then
    some ({ cpu with pc := cpu.regs (instr >>> 9 &&& 0x7) &&& ADDR_MASK }, ins, [])
  else if instr >>> 12 &&& 0xF = 0x6 then
    some ((if get_flag cpu FLAG_ZERO then
      { cpu with pc := cpu.regs (instr >>> 9 &&& 0x7) &&& ADDR_MASK } else cpu), ins, [])
  else if instr >>> 12 &&& 0xF = 0x7 then
    some ((if get_flag cpu FLAG_ZERO then cpu else
      { cpu with pc := cpu.regs (instr >>> 9 &&& 0x7) &&& ADDR_MASK }), ins, [])
  else if instr >>> 12 &&& 0xF = 0x8 then
    some (stack_push16 cpu (cpu.regs (instr >>> 9 &&& 0x7)), ins, [])
  else if instr >>> 12 &&& 0xF = 0x9 then
    some (step_pop cpu (instr >>> 9 &&& 0x7), ins, [])
  else if instr >>> 12 &&& 0xF = 0xA then
    some (step_call cpu (instr >>> 9 &&& 0x7), ins, [])
  else if instr >>> 12 &&& 0xF = 0xB then
    step_stdout cpu (instr >>> 9 &&& 0x7) (instr >>> 6 &&& 0x7) ins
  else if instr >>> 12 &&& 0xF = 0xC then
    step_stdin cpu (instr >>> 9 &&& 0x7) (instr >>> 6 &&& 0x7) ins
  else if instr >>> 12 &&& 0xF = 0xD then
    step_ext cpu instr ins
  else
    some ({ cpu with halted := true },
      ins, [Output.unknownOp (instr >>> 12 &&& 0xF) (sub32 cpu.pc 2)])

/-- cpu_step: if halted, do nothing; otherwise fetch the word at `pc`, advance
`pc` by 2 (in `uint32_t`), and execute.  `none` is undefined behavior (an
out-of-bounds raw-pointer access in a string operation). -/
def cpu_step (cpu : CPU) (ins : List InEvent) :
    Option (CPU × List InEvent × List Output) :=
  if cpu.halted then some (cpu, ins, [])
  else step_instr { cpu with pc := (cpu.pc + 2) % 2 ^ 32 } (mem_r16 cpu cpu.pc) ins

/-- cpu_create: the reset state — `calloc` zeroes the registers, segment
registers and flags, the memory is zeroed, `pc = 0`,
`sp = MEMORY_SIZE - 2`, not halted. -/
def cpu_create : CPU :=
  { regs := fun _ => 0, pc := 0, sp := MEMORY_SIZE - 2, SR := fun _ => 0,
    flags := 0, mem := fun _ => 0, halted := false }

/-- The initial state of a run: the reset state with a program loaded into
memory (in `main`, the ProgramBuilder writes the program bytes into the zeroed
memory before `cpu_run` starts). -/
def loaded (prog : Nat → Nat) : CPU :=
  { cpu_create with mem := fun a => prog a % 2 ^ 8 }

/-- Reachability by repeated `cpu_step` (the `cpu_run` loop), threading the
input stream and ignoring outputs. -/
inductive Reach : CPU → List InEvent → CPU → List InEvent → Prop where
  | refl (c : CPU) (ins : List InEvent) : Reach c ins c ins
  | step {c1 c3 : CPU} {i1 i3 : List InEvent} {c2 : CPU} {i2 : List InEvent}
      {out : List Output} :
      cpu_step c1 i1 = some (c2, i2, out) → Reach c2 i2 c3 i3 → Reach c1 i1 c3 i3

/-- The CPU after one non-UB step (used to name step results concretely). -/
def after_step (cpu : CPU) (ins : List InEvent) : CPU :=
  match cpu_step cpu ins with
  | some p => p.1
  | none => cpu

/-- Modelled from the spec (§4.1, claim C6): the asserted wrap-around string
scan, in which every byte is read at an address reduced modulo `MEMORY_SIZE`,
so a scan continues from address 0 past the top of memory.  This definition
follows the specification's words; compare `cstr_scan`, which is the scan the
code performs. -/
def wrap_scan (mem : Nat → Nat) (a : Nat) : Nat → Option (List Nat)
  | 0 => none
  | fuel + 1 =>
    if mem (a % MEMORY_SIZE) = 0 then some []
    else
      match wrap_scan mem (a + 1) fuel with
      | none => none
      | some bs => some (mem (a % MEMORY_SIZE) :: bs)

/-! ### Concrete machine states used to instantiate the general theorems -/

/-- A state about to execute `EXT_ADD R0, R1` (instruction word 0xD608 at
address 0, little-endian) with `R0 = R1 = 0x7FFF`. -/
def c1_state : CPU :=
  { regs := fun i => if i = 0 then 0x7FFF else if i = 1 then 0x7FFF else 0,
    pc := 0, sp := MEMORY_SIZE - 2, SR := fun _ => 0, flags := 0,
    mem := fun a => if a = 0 then 0x08 else if a = 1 then 0xD6 else 0,
    halted := false }

/-- A state about to execute `EXT_SUB R0, R1` (instruction word 0xD808 at
address 0) with `R0 = 5`, `R1 = 10`. -/
def c2_state : CPU :=
  { regs := fun i => if i = 0 then 5 else if i = 1 then 10 else 0,
    pc := 0, sp := MEMORY_SIZE - 2, SR := fun _ => 0, flags := 0,
    mem := fun a => if a = 0 then 0x08 else if a = 1 then 0xD8 else 0,
    halted := false }

/-- A state about to execute `CALL R0` (instruction word 0xA000 at address 0)
with `R0 = 0x100`, and `EXT_RET` (word 0xD000) at the target 0x100. -/
def c3_state : CPU :=
  { regs := fun i => if i = 0 then 0x100 else 0,
    pc := 0, sp := MEMORY_SIZE - 2, SR := fun _ => 0, flags := 0,
    mem := fun a => if a = 0 then 0x00 else if a = 1 then 0xA0 else
      if a = 0x100 then 0x00 else if a = 0x101 then 0xD0 else 0,
    halted := false }

/-- A one-instruction program: `POP R0` (instruction word 0x9000 at
address 0). -/
def c4_prog : Nat → Nat := fun a => if a = 1 then 0x90 else 0

/-- A state about to execute `MOVI R0, 0x1FF` (instruction word 0x31FF at
address 0). -/
def c5_state : CPU :=
  { cpu_create with
    mem := fun a => if a = 0 then 0xFF else if a = 1 then 0x31 else 0 }

/-- A state about to execute `MOVI R0, 0x0FF` (instruction word 0x30FF at
address 0). -/
def c5b_state : CPU :=
  { cpu_create with
    mem := fun a => if a = 0 then 0xFF else if a = 1 then 0x30 else 0 }

/-- A state whose next instruction is `STDOUT` in string mode 0 (word 0xB000),
fetched from address 0xFFFFD, so the string scan starts at the top byte of
memory (0xFFFFF), which is nonzero; the byte at address 0 is zero.  The
wrap-around reading asserted by the spec would print the single byte 65 and
stop at the terminator found at address 0; the code instead runs its scan off
the end of the array. -/
def c6_state : CPU :=
  { regs := fun _ => 0, pc := 0xFFFFD, sp := MEMORY_SIZE - 2, SR := fun _ => 0,
    flags := 0,
    mem := fun a => if a = 0xFFFFD then 0x00 else if a = 0xFFFFE then 0xB0 else
      if a = 0xFFFFF then 65 else 0,
    halted := false }

/-- A small memory holding the two-byte string "AB" at address 5 (terminator
at address 7). -/
def c6_mem : Nat → Nat := fun a => if a = 5 then 65 else if a = 6 then 66 else 0

/-- A state about to fetch the reserved instruction word 0xE000 from
address 0. -/
def c7_state : CPU :=
  { cpu_create with mem := fun a => if a = 1 then 0xE0 else 0 }

/-- An already-halted machine state. -/
def c8_state : CPU := { cpu_create with halted := true }

/-- A state about to execute `EXT_AND R0, R1` (instruction word 0xDA08 at
address 0). -/
def c10_state : CPU :=
  { cpu_create with
    mem := fun a => if a = 0 then 0x08 else if a = 1 then 0xDA else 0 }

/-! ### Arithmetic and bitwise helper lemmas -/

theorem and_ADDR_MASK (x : Nat) : x &&& ADDR_MASK = x % 2 ^ 20 := by
  rw [show ADDR_MASK = 2 ^ 20 - 1 by norm_num [ADDR_MASK], Nat.and_pow_two_sub_one_eq_mod]

theorem and_FFFF (x : Nat) : x &&& 0xFFFF = x % 2 ^ 16 := by
  rw [show (0xFFFF : Nat) = 2 ^ 16 - 1 by norm_num, Nat.and_pow_two_sub_one_eq_mod]

theorem and_FF (x : Nat) : x &&& 0xFF = x % 2 ^ 8 := by
  rw [show (0xFF : Nat) = 2 ^ 8 - 1 by norm_num, Nat.and_pow_two_sub_one_eq_mod]

theorem and_F (x : Nat) : x &&& 0xF = x % 2 ^ 4 := by
  rw [show (0xF : Nat) = 2 ^ 4 - 1 by norm_num, Nat.and_pow_two_sub_one_eq_mod]

theorem and_1FF (x : Nat) : x &&& 0x1FF = x % 2 ^ 9 := by
  rw [show (0x1FF : Nat) = 2 ^ 9 - 1 by norm_num, Nat.and_pow_two_sub_one_eq_mod]

theorem and_7 (x : Nat) : x &&& 0x7 = x % 2 ^ 3 := by
  rw [show (0x7 : Nat) = 2 ^ 3 - 1 by norm_num, Nat.and_pow_two_sub_one_eq_mod]

theorem sub32_lt (x y : Nat) : sub32 x y < 2 ^ 32 := Nat.mod_lt _ (by norm_num)

theorem mod32_lt (x : Nat) : x % 2 ^ 32 < 2 ^ 32 := Nat.mod_lt _ (by norm_num)

theorem shift_lor_eq (hi lo n : Nat) (hlo : lo < 2 ^ n) :
    hi <<< n ||| lo = 2 ^ n * hi + lo := by
  rw [Nat.shiftLeft_eq, Nat.mul_comm, ← Nat.mul_add_lt_is_or hlo]

theorem lor_shift_eq (lo hi n : Nat) (hlo : lo < 2 ^ n) :
    lo ||| hi <<< n = 2 ^ n * hi + lo := by
  rw [Nat.or_comm, shift_lor_eq hi lo n hlo]

theorem recompose20 (x : Nat) :
    ((x >>> 16) &&& 0xF) <<< 16 ||| (x &&& 0xFFFF) = x % 2 ^ 20 := by
  rw [and_F, and_FFFF, Nat.shiftRight_eq_div_pow,
    shift_lor_eq _ _ _ (Nat.mod_lt _ (by norm_num))]
  omega

/-! ### Projection lemmas for the state-updating helpers -/

@[simp] theorem set_reg_regs (c : CPU) (r v i : Nat) :
    (set_reg c r v).regs i = if i = r then v % 2 ^ 16 else c.regs i := rfl

@[simp] theorem set_reg_pc (c : CPU) (r v : Nat) : (set_reg c r v).pc = c.pc := rfl

@[simp] theorem set_reg_sp (c : CPU) (r v : Nat) : (set_reg c r v).sp = c.sp := rfl

@[simp] theorem set_reg_flags (c : CPU) (r v : Nat) : (set_reg c r v).flags = c.flags := rfl

@[simp] theorem set_reg_mem (c : CPU) (r v : Nat) : (set_reg c r v).mem = c.mem := rfl

@[simp] theorem set_reg_halted (c : CPU) (r v : Nat) : (set_reg c r v).halted = c.halted := rfl

@[simp] theorem set_flag_regs (c : CPU) (f : Nat) (v : Bool) :
    (set_flag c f v).regs = c.regs := rfl

@[simp] theorem set_flag_pc (c : CPU) (f : Nat) (v : Bool) : (set_flag c f v).pc = c.pc := rfl

@[simp] theorem set_flag_sp (c : CPU) (f : Nat) (v : Bool) : (set_flag c f v).sp = c.sp := rfl

@[simp] theorem set_flag_mem (c : CPU) (f : Nat) (v : Bool) :
    (set_flag c f v).mem = c.mem := rfl

@[simp] theorem set_flag_halted (c : CPU) (f : Nat) (v : Bool) :
    (set_flag c f v).halted = c.halted := rfl

@[simp] theorem update_flags_regs (c : CPU) (r : Nat) :
    (update_flags c r).regs = c.regs := rfl

@[simp] theorem update_flags_pc (c : CPU) (r : Nat) : (update_flags c r).pc = c.pc := rfl

@[simp] theorem update_flags_sp (c : CPU) (r : Nat) : (update_flags c r).sp = c.sp := rfl

@[simp] theorem update_flags_mem (c : CPU) (r : Nat) : (update_flags c r).mem = c.mem := rfl

@[simp] theorem update_flags_halted (c : CPU) (r : Nat) :
    (update_flags c r).halted = c.halted := rfl

@[simp] theorem mem_w8_pc (c : CPU) (a v : Nat) : (mem_w8 c a v).pc = c.pc := rfl

@[simp] theorem mem_w8_sp (c : CPU) (a v : Nat) : (mem_w8 c a v).sp = c.sp := rfl

@[simp] theorem mem_w8_regs (c : CPU) (a v : Nat) : (mem_w8 c a v).regs = c.regs := rfl

@[simp] theorem mem_w8_flags (c : CPU) (a v : Nat) : (mem_w8 c a v).flags = c.flags := rfl

@[simp] theorem mem_w8_halted (c : CPU) (a v : Nat) : (mem_w8 c a v).halted = c.halted := rfl

@[simp] theorem mem_w16_pc (c : CPU) (a v : Nat) : (mem_w16 c a v).pc = c.pc := by
  show (mem_w8 (mem_w8 c a (v &&& 0xFF)) ((a + 1) % 2 ^ 32) (v >>> 8 &&& 0xFF)).pc = c.pc
  rw [mem_w8_pc, mem_w8_pc]

@[simp] theorem mem_w16_sp (c : CPU) (a v : Nat) : (mem_w16 c a v).sp = c.sp := by
  show (mem_w8 (mem_w8 c a (v &&& 0xFF)) ((a + 1) % 2 ^ 32) (v >>> 8 &&& 0xFF)).sp = c.sp
  rw [mem_w8_sp, mem_w8_sp]

@[simp] theorem mem_w16_regs (c : CPU) (a v : Nat) : (mem_w16 c a v).regs = c.regs := by
  show (mem_w8 (mem_w8 c a (v &&& 0xFF)) ((a + 1) % 2 ^ 32) (v >>> 8 &&& 0xFF)).regs = c.regs
  rw [mem_w8_regs, mem_w8_regs]

@[simp] theorem mem_w16_flags (c : CPU) (a v : Nat) : (mem_w16 c a v).flags = c.flags := by
  show (mem_w8 (mem_w8 c a (v &&& 0xFF)) ((a + 1) % 2 ^ 32) (v >>> 8 &&& 0xFF)).flags = c.flags
  rw [mem_w8_flags, mem_w8_flags]

@[simp] theorem mem_w16_halted (c : CPU) (a v : Nat) :
    (mem_w16 c a v).halted = c.halted := by
  show (mem_w8 (mem_w8 c a (v &&& 0xFF)) ((a + 1) % 2 ^ 32) (v >>> 8 &&& 0xFF)).halted
    = c.halted
  rw [mem_w8_halted, mem_w8_halted]

@[simp] theorem stack_push16_sp (c : CPU) (v : Nat) :
    (stack_push16 c v).sp = sub32 c.sp 2 := by
  show (mem_w16 { c with sp := sub32 c.sp 2 } (sub32 c.sp 2) v).sp = sub32 c.sp 2
  rw [mem_w16_sp]

@[simp] theorem stack_push16_pc (c : CPU) (v : Nat) : (stack_push16 c v).pc = c.pc := by
  show (mem_w16 { c with sp := sub32 c.sp 2 } (sub32 c.sp 2) v).pc = c.pc
  rw [mem_w16_pc]

@[simp] theorem stack_push16_regs (c : CPU) (v : Nat) :
    (stack_push16 c v).regs = c.regs := by
  show (mem_w16 { c with sp := sub32 c.sp 2 } (sub32 c.sp 2) v).regs = c.regs
  rw [mem_w16_regs]

@[simp] theorem stack_push16_flags (c : CPU) (v : Nat) :
    (stack_push16 c v).flags = c.flags := by
  show (mem_w16 { c with sp := sub32 c.sp 2 } (sub32 c.sp 2) v).flags = c.flags
  rw [mem_w16_flags]

@[simp] theorem stack_push16_halted (c : CPU) (v : Nat) :
    (stack_push16 c v).halted = c.halted := by
  show (mem_w16 { c with sp := sub32 c.sp 2 } (sub32 c.sp 2) v).halted = c.halted
  rw [mem_w16_halted]

/-! ### Memory read-over-write lemmas -/

theorem mem_w8_mem (c : CPU) (a v : Nat) :
    (mem_w8 c a v).mem = fun i => if i = a &&& ADDR_MASK then v % 2 ^ 8 else c.mem i := rfl

theorem mem_r8_eq (c : CPU) (b : Nat) : mem_r8 c b = c.mem (b % 2 ^ 20) := by
  rw [mem_r8, and_ADDR_MASK]

theorem mem_r8_mem_w8 (c : CPU) (a v b : Nat) :
    mem_r8 (mem_w8 c a v) b =
      if b % 2 ^ 20 = a % 2 ^ 20 then v % 2 ^ 8 else mem_r8 c b := by
  simp only [mem_r8_eq, mem_w8_mem, and_ADDR_MASK]

theorem mem_r16_eq (c : CPU) (b : Nat) :
    mem_r16 c b = (mem_r8 c b ||| mem_r8 c ((b + 1) % 2 ^ 32) <<< 8) % 2 ^ 16 := rfl

theorem mem_r16_lt (c : CPU) (b : Nat) : mem_r16 c b < 2 ^ 16 := Nat.mod_lt _ (by norm_num)

theorem mem_r16_mem_w16 (c : CPU) (a v : Nat) (hv : v < 2 ^ 16) :
    mem_r16 (mem_w16 c a v) a = v := by
  rw [mem_r16_eq, mem_w16]
  simp only [mem_r8_mem_w8]
  split_ifs with h1 _h2 _h3 _h4 <;> try omega
  · simp only [and_FF, Nat.mod_mod]
    rw [lor_shift_eq _ _ _ (Nat.mod_lt _ (by norm_num)), Nat.shiftRight_eq_div_pow]
    omega

theorem mem_r16_mem_w16_ne (c : CPU) (a v b : Nat)
    (h1 : b % 2 ^ 20 ≠ a % 2 ^ 20) (h2 : b % 2 ^ 20 ≠ (a + 1) % 2 ^ 32 % 2 ^ 20)
    (h3 : (b + 1) % 2 ^ 32 % 2 ^ 20 ≠ a % 2 ^ 20)
    (h4 : (b + 1) % 2 ^ 32 % 2 ^ 20 ≠ (a + 1) % 2 ^ 32 % 2 ^ 20) :
    mem_r16 (mem_w16 c a v) b = mem_r16 c b := by
  rw [mem_r16_eq, mem_w16]
  simp only [mem_r8_mem_w8]
  rw [if_neg h2, if_neg h1, if_neg h4, if_neg h3, mem_r16_eq]

/-! ### Dispatch-reduction lemmas -/

theorem cpu_step_not_halted (c : CPU) (ins : List InEvent) (h : c.halted = false) :
    cpu_step c ins =
      step_instr { c with pc := (c.pc + 2) % 2 ^ 32 } (mem_r16 c c.pc) ins := by
  simp only [cpu_step, h, Bool.false_eq_true, if_false]

theorem cpu_step_halted_eq (c : CPU) (ins : List InEvent) (h : c.halted = true) :
    cpu_step c ins = some (c, ins, []) := by
  simp only [cpu_step, h, if_true]

theorem step_instr_movi (c : CPU) (instr : Nat) (ins : List InEvent)
    (h : instr >>> 12 &&& 0xF = 0x3) :
    step_instr c instr ins =
      some (step_movi c (instr >>> 9 &&& 0x7) (instr &&& 0x1FF), ins, []) := by
  simp [step_instr, h]

theorem step_instr_call (c : CPU) (instr : Nat) (ins : List InEvent)
    (h : instr >>> 12 &&& 0xF = 0xA) :
    step_instr c instr ins = some (step_call c (instr >>> 9 &&& 0x7), ins, []) := by
  simp [step_instr, h]

theorem step_instr_ext (c : CPU) (instr : Nat) (ins : List InEvent)
    (h : instr >>> 12 &&& 0xF = 0xD) :
    step_instr c instr ins = step_ext c instr ins := by
  simp [step_instr, h]

theorem step_instr_unknown (c : CPU) (instr : Nat) (ins : List InEvent)
    (h : 0xD < instr >>> 12 &&& 0xF) :
    step_instr c instr ins =
      some ({ c with halted := true },
        ins, [Output.unknownOp (instr >>> 12 &&& 0xF) (sub32 c.pc 2)]) := by
  have hne : ∀ k : Nat, k ≤ 0xD → instr >>> 12 &&& 0xF ≠ k := by omega
  rw [step_instr, if_neg (hne 0 (by norm_num)), if_neg (hne 1 (by norm_num)),
    if_neg (hne 2 (by norm_num)), if_neg (hne 3 (by norm_num)),
    if_neg (hne 4 (by norm_num)), if_neg (hne 5 (by norm_num)),
    if_neg (hne 6 (by norm_num)), if_neg (hne 7 (by norm_num)),
    if_neg (hne 8 (by norm_num)), if_neg (hne 9 (by norm_num)),
    if_neg (hne 10 (by norm_num)), if_neg (hne 11 (by norm_num)),
    if_neg (hne 12 (by norm_num)), if_neg (hne 13 (by norm_num))]

theorem step_ext_sel_add (c : CPU) (instr : Nat) (ins : List InEvent)
    (h : instr >>> 9 &&& 0x7 = 0x3) :
    step_ext c instr ins =
      some (step_ext_add c (instr >>> 6 &&& 0x7) (instr >>> 3 &&& 0x7), ins, []) := by
  simp [step_ext, h]

theorem step_ext_sel_sub (c : CPU) (instr : Nat) (ins : List InEvent)
    (h : instr >>> 9 &&& 0x7 = 0x4) :
    step_ext c instr ins =
      some (step_ext_sub c (instr >>> 6 &&& 0x7) (instr >>> 3 &&& 0x7), ins, []) := by
  simp [step_ext, h]

theorem step_ext_sel_ret (c : CPU) (instr : Nat) (ins : List InEvent)
    (h : instr >>> 9 &&& 0x7 = 0x0) :
    step_ext c instr ins = some (step_ext_ret c, ins, []) := by
  simp [step_ext, h]

theorem step_ext_sel_and (c : CPU) (instr : Nat) (ins : List InEvent)
    (h : instr >>> 9 &&& 0x7 = 0x5) :
    step_ext c instr ins =
      some (step_ext_and c (instr >>> 6 &&& 0x7) (instr >>> 3 &&& 0x7), ins, []) := by
  simp [step_ext, h]

theorem step_ext_sel_or (c : CPU) (instr : Nat) (ins : List InEvent)
    (h : instr >>> 9 &&& 0x7 = 0x6) :
    step_ext c instr ins =
      some (step_ext_or c (instr >>> 6 &&& 0x7) (instr >>> 3 &&& 0x7), ins, []) := by
  simp [step_ext, h]

theorem step_ext_sel_xor (c : CPU) (instr : Nat) (ins : List InEvent)
    (h : instr >>> 9 &&& 0x7 = 0x7) :
    step_ext c instr ins =
      some (step_ext_xor c (instr >>> 6 &&& 0x7) (instr >>> 3 &&& 0x7), ins, []) := by
  simp [step_ext, h]

theorem step_ext_sel_load (c : CPU) (instr : Nat) (ins : List InEvent)
    (h : instr >>> 9 &&& 0x7 = 0x1) :
    step_ext c instr ins =
      some (step_ext_load c (instr >>> 6 &&& 0x7) (instr >>> 3 &&& 0x7), ins, []) := by
  simp [step_ext, h]

theorem step_ext_sel_store (c : CPU) (instr : Nat) (ins : List InEvent)
    (h : instr >>> 9 &&& 0x7 = 0x2) :
    step_ext c instr ins =
      some (step_ext_store c (instr >>> 6 &&& 0x7) (instr >>> 3 &&& 0x7), ins, []) := by
  simp [step_ext, h]

/-! ### Halted-flag preservation of the extended operations -/

@[simp] theorem step_ext_add_halted (c : CPU) (r1 r2 : Nat) :
    (step_ext_add c r1 r2).halted = c.halted := by
  simp [step_ext_add]

@[simp] theorem step_ext_sub_halted (c : CPU) (r1 r2 : Nat) :
    (step_ext_sub c r1 r2).halted = c.halted := by
  simp [step_ext_sub]

@[simp] theorem step_ext_and_halted (c : CPU) (r1 r2 : Nat) :
    (step_ext_and c r1 r2).halted = c.halted := by
  simp [step_ext_and]

@[simp] theorem step_ext_or_halted (c : CPU) (r1 r2 : Nat) :
    (step_ext_or c r1 r2).halted = c.halted := by
  simp [step_ext_or]

@[simp] theorem step_ext_xor_halted (c : CPU) (r1 r2 : Nat) :
    (step_ext_xor c r1 r2).halted = c.halted := by
  simp [step_ext_xor]

@[simp] theorem step_ext_load_halted (c : CPU) (r1 r2 : Nat) :
    (step_ext_load c r1 r2).halted = c.halted := by
  simp [step_ext_load]

@[simp] theorem step_ext_store_halted (c : CPU) (r1 r2 : Nat) :
    (step_ext_store c r1 r2).halted = c.halted := by
  simp [step_ext_store]

@[simp] theorem step_ext_ret_halted (c : CPU) :
    (step_ext_ret c).halted = c.halted := by
  simp [step_ext_ret, stack_pop16]

theorem mem_r16_mem (c : CPU) (b : Nat) :
    mem_r16 c b =
      (c.mem (b % 2 ^ 20) ||| c.mem ((b + 1) % 2 ^ 32 % 2 ^ 20) <<< 8) % 2 ^ 16 := by
  rw [mem_r16_eq, mem_r8_eq, mem_r8_eq]

theorem mem_r16_of_mem_eq (c d : CPU) (h : c.mem = d.mem) (b : Nat) :
    mem_r16 c b = mem_r16 d b := by
  rw [mem_r16_mem, mem_r16_mem, h]

theorem mem_w16_mem_congr (x y : CPU) (h : x.mem = y.mem) (a v : Nat) :
    (mem_w16 x a v).mem = (mem_w16 y a v).mem := by
  funext i
  simp only [mem_w16, mem_w8_mem, mem_w8]
  rw [h]

theorem stack_push16_mem (c : CPU) (v : Nat) :
    (stack_push16 c v).mem = (mem_w16 c (sub32 c.sp 2) v).mem := by
  show (mem_w16 { c with sp := sub32 c.sp 2 } (sub32 c.sp 2) v).mem = _
  exact mem_w16_mem_congr _ _ (by simp) _ _

/-! ### Projections of OP_CALL and EXT_RET -/

@[simp] theorem step_call_halted (c : CPU) (dst : Nat) :
    (step_call c dst).halted = c.halted := by
  simp [step_call]

@[simp] theorem step_call_pc (c : CPU) (dst : Nat) :
    (step_call c dst).pc = c.regs dst &&& ADDR_MASK := by
  simp [step_call]

@[simp] theorem step_call_sp (c : CPU) (dst : Nat) :
    (step_call c dst).sp = sub32 (sub32 c.sp 2) 2 := by
  simp [step_call]

@[simp] theorem step_call_regs (c : CPU) (dst : Nat) :
    (step_call c dst).regs = c.regs := by
  simp [step_call]

@[simp] theorem step_ext_ret_pc (c : CPU) :
    (step_ext_ret c).pc =
      ((mem_r16 c c.sp &&& 0xF) <<< 16) ||| mem_r16 c ((c.sp + 2) % 2 ^ 32) := by
  simp only [step_ext_ret, stack_pop16]
  rw [mem_r16_of_mem_eq { c with sp := (c.sp + 2) % 2 ^ 32 } c rfl]

theorem step_call_mem (c : CPU) (dst : Nat) :
    (step_call c dst).mem =
      (mem_w16 (mem_w16 c (sub32 c.sp 2) (c.pc &&& 0xFFFF))
        (sub32 (sub32 c.sp 2) 2) (c.pc >>> 16 &&& 0xF)).mem := by
  show (stack_push16 (stack_push16 c (c.pc &&& 0xFFFF)) (c.pc >>> 16 &&& 0xF)).mem = _
  rw [stack_push16_mem, stack_push16_sp]
  exact mem_w16_mem_congr _ _ (stack_push16_mem c _) _ _

/-! ### Flag-bit lemmas -/

theorem land_two_pow_bne (x j : Nat) : (x &&& 2 ^ j != 0) = x.testBit j := by
  cases h : x.testBit j
  · have h0 : x &&& 2 ^ j = 0 := by
      apply Nat.eq_of_testBit_eq
      intro i
      rcases eq_or_ne i j with rfl | hne
      · simp [h]
      · simp [Nat.testBit_two_pow, (Ne.symm hne)]
    simp [h0]
  · have h1 : (x &&& 2 ^ j).testBit j = true := by
      simp [h, Nat.testBit_two_pow]
    have hne : x &&& 2 ^ j ≠ 0 := by
      intro h0
      rw [h0] at h1
      simp at h1
    simp [hne]

theorem get_flag_two_pow (c : CPU) (j : Nat) :
    get_flag c (2 ^ j) = c.flags.testBit j := land_two_pow_bne c.flags j

theorem set_flag_flags_testBit (c : CPU) (i j : Nat) (v : Bool) (hj : j < 8) :
    ((set_flag c (2 ^ i) v).flags).testBit j =
      if i = j then v else c.flags.testBit j := by
  have h255 : (0xFF : Nat) ^^^ 2 ^ i = (2 ^ 8 - 1) ^^^ 2 ^ i := by norm_num
  cases v
  · have hP : (set_flag c (2 ^ i) false).flags = c.flags &&& (0xFF ^^^ 2 ^ i) := by
      simp [set_flag]
    rw [hP, h255, Nat.testBit_and, Nat.testBit_xor, Nat.testBit_two_pow_sub_one,
      Nat.testBit_two_pow]
    rcases eq_or_ne i j with rfl | hij
    · simp [hj]
    · simp [hij, hj]
  · have hP : (set_flag c (2 ^ i) true).flags = c.flags ||| 2 ^ i := by
      simp [set_flag]
    rw [hP, Nat.testBit_or, Nat.testBit_two_pow]
    rcases eq_or_ne i j with rfl | hij
    · simp
    · simp [hij]

theorem get_flag_set_reg (c : CPU) (r v f : Nat) :
    get_flag (set_reg c r v) f = get_flag c f := rfl

theorem FLAG_ZERO_eq : FLAG_ZERO = 2 ^ 0 := by norm_num [FLAG_ZERO]

theorem FLAG_SIGN_eq : FLAG_SIGN = 2 ^ 1 := by norm_num [FLAG_SIGN]

theorem FLAG_CARRY_eq : FLAG_CARRY = 2 ^ 2 := by norm_num [FLAG_CARRY]

theorem FLAG_OVERFLOW_eq : FLAG_OVERFLOW = 2 ^ 3 := by norm_num [FLAG_OVERFLOW]

theorem get_flag_set_flag (c : CPU) (g : Nat) (v : Bool) (f i k : Nat)
    (hf : f = 2 ^ i) (hg : g = 2 ^ k) (hi : i < 8) :
    get_flag (set_flag c g v) f = if k = i then v else get_flag c f := by
  subst hf hg
  rw [get_flag_two_pow, get_flag_two_pow, set_flag_flags_testBit _ _ _ _ hi]

theorem get_flag_update_flags (c : CPU) (r : Nat) (f i : Nat)
    (hf : f = 2 ^ i) (hi : i < 8) :
    get_flag (update_flags c r) f =
      if 1 = i then (r % 2 ^ 16 &&& 0x8000 != 0)
      else if 0 = i then (r % 2 ^ 16 == 0)
      else get_flag c f := by
  rw [update_flags, get_flag_set_flag _ _ _ f i 1 hf FLAG_SIGN_eq hi,
    get_flag_set_flag _ _ _ f i 0 hf FLAG_ZERO_eq hi]

theorem and_8000_bne (x : Nat) : (x &&& 0x8000 != 0) = x.testBit 15 := by
  rw [show (0x8000 : Nat) = 2 ^ 15 by norm_num, land_two_pow_bne]

theorem testBit15_mod16 (x : Nat) : (x % 2 ^ 16).testBit 15 = x.testBit 15 := by
  rw [Nat.testBit_mod_two_pow]
  simp

theorem testBit15_mod32 (x : Nat) : (x % 2 ^ 32).testBit 15 = x.testBit 15 := by
  rw [Nat.testBit_mod_two_pow]
  simp

/-! ### Behavior of the arithmetic steps on 16-bit register values -/

theorem step_ext_add_spec (c : CPU) (r1 r2 a b : Nat)
    (ha : c.regs r1 = a) (hb : c.regs r2 = b) (ha16 : a < 2 ^ 16) (hb16 : b < 2 ^ 16) :
    (step_ext_add c r1 r2).regs r1 = (a + b) % 2 ^ 16 ∧
    (get_flag (step_ext_add c r1 r2) FLAG_CARRY = true ↔ 0xFFFF < a + b) ∧
    (get_flag (step_ext_add c r1 r2) FLAG_OVERFLOW = true ↔
      (a.testBit 15 = b.testBit 15 ∧ ((a + b) % 2 ^ 16).testBit 15 ≠ a.testBit 15)) ∧
    (get_flag (step_ext_add c r1 r2) FLAG_ZERO = true ↔ (a + b) % 2 ^ 16 = 0) ∧
    (get_flag (step_ext_add c r1 r2) FLAG_SIGN = true ↔
      ((a + b) % 2 ^ 16).testBit 15 = true) := by
  have hres : (a + b) % 2 ^ 32 = a + b := by omega
  refine ⟨?_, ?_, ?_, ?_, ?_⟩
  · simp only [step_ext_add, ha, hb, hres, update_flags_regs, set_reg_regs]
    rw [if_pos trivial, and_FFFF, Nat.mod_mod]
  · simp only [step_ext_add, ha, hb, hres]
    rw [get_flag_update_flags _ _ FLAG_CARRY 2 FLAG_CARRY_eq (by norm_num),
      if_neg (by norm_num), if_neg (by norm_num), get_flag_set_reg,
      get_flag_set_flag _ _ _ FLAG_CARRY 2 3 FLAG_CARRY_eq FLAG_OVERFLOW_eq (by norm_num),
      if_neg (by norm_num),
      get_flag_set_flag _ _ _ FLAG_CARRY 2 2 FLAG_CARRY_eq FLAG_CARRY_eq (by norm_num),
      if_pos rfl]
    simp
  · simp only [step_ext_add, ha, hb, hres]
    rw [get_flag_update_flags _ _ FLAG_OVERFLOW 3 FLAG_OVERFLOW_eq (by norm_num),
      if_neg (by norm_num), if_neg (by norm_num), get_flag_set_reg,
      get_flag_set_flag _ _ _ FLAG_OVERFLOW 3 3 FLAG_OVERFLOW_eq FLAG_OVERFLOW_eq
        (by norm_num),
      if_pos rfl, and_8000_bne, and_8000_bne, and_8000_bne,
      ← testBit15_mod16 (a + b)]
    cases hx : a.testBit 15 <;> cases hy : b.testBit 15 <;>
      cases hz : ((a + b) % 2 ^ 16).testBit 15 <;> simp [hx, hy, hz]
  · simp only [step_ext_add, ha, hb, hres, set_reg_regs]
    rw [get_flag_update_flags _ _ FLAG_ZERO 0 FLAG_ZERO_eq (by norm_num),
      if_neg (by norm_num), if_pos rfl, if_pos trivial, and_FFFF, Nat.mod_mod,
      Nat.mod_mod]
    simp
  · simp only [step_ext_add, ha, hb, hres, set_reg_regs]
    rw [get_flag_update_flags _ _ FLAG_SIGN 1 FLAG_SIGN_eq (by norm_num),
      if_pos rfl, if_pos trivial, and_FFFF, Nat.mod_mod, Nat.mod_mod, and_8000_bne]

theorem step_ext_sub_spec (c : CPU) (r1 r2 a b : Nat)
    (ha : c.regs r1 = a) (hb : c.regs r2 = b) (ha16 : a < 2 ^ 16) (hb16 : b < 2 ^ 16) :
    (step_ext_sub c r1 r2).regs r1 = (a + (2 ^ 16 - b)) % 2 ^ 16 ∧
    (get_flag (step_ext_sub c r1 r2) FLAG_CARRY = true ↔ a < b) ∧
    (get_flag (step_ext_sub c r1 r2) FLAG_OVERFLOW = true ↔
      (a.testBit 15 ≠ b.testBit 15 ∧
        ((a + (2 ^ 16 - b)) % 2 ^ 16).testBit 15 ≠ a.testBit 15)) ∧
    (get_flag (step_ext_sub c r1 r2) FLAG_ZERO = true ↔
      (a + (2 ^ 16 - b)) % 2 ^ 16 = 0) ∧
    (get_flag (step_ext_sub c r1 r2) FLAG_SIGN = true ↔
      ((a + (2 ^ 16 - b)) % 2 ^ 16).testBit 15 = true) := by
  have hd16 : sub32 a b % 2 ^ 16 = (a + (2 ^ 16 - b)) % 2 ^ 16 := by
    rw [sub32]; omega
  have hd15 : (sub32 a b).testBit 15 = ((a + (2 ^ 16 - b)) % 2 ^ 16).testBit 15 := by
    rw [← testBit15_mod16 (sub32 a b), hd16]
  refine ⟨?_, ?_, ?_, ?_, ?_⟩
  · simp only [step_ext_sub, ha, hb, update_flags_regs, set_reg_regs]
    rw [if_pos trivial, and_FFFF, Nat.mod_mod, hd16]
  · simp only [step_ext_sub, ha, hb]
    rw [get_flag_update_flags _ _ FLAG_CARRY 2 FLAG_CARRY_eq (by norm_num),
      if_neg (by norm_num), if_neg (by norm_num), get_flag_set_reg,
      get_flag_set_flag _ _ _ FLAG_CARRY 2 3 FLAG_CARRY_eq FLAG_OVERFLOW_eq (by norm_num),
      if_neg (by norm_num),
      get_flag_set_flag _ _ _ FLAG_CARRY 2 2 FLAG_CARRY_eq FLAG_CARRY_eq (by norm_num),
      if_pos rfl]
    simp
  · simp only [step_ext_sub, ha, hb]
    rw [get_flag_update_flags _ _ FLAG_OVERFLOW 3 FLAG_OVERFLOW_eq (by norm_num),
      if_neg (by norm_num), if_neg (by norm_num), get_flag_set_reg,
      get_flag_set_flag _ _ _ FLAG_OVERFLOW 3 3 FLAG_OVERFLOW_eq FLAG_OVERFLOW_eq
        (by norm_num),
      if_pos rfl, and_8000_bne, and_8000_bne, and_8000_bne, hd15]
    cases hx : a.testBit 15 <;> cases hy : b.testBit 15 <;>
      cases hz : ((a + (2 ^ 16 - b)) % 2 ^ 16).testBit 15 <;> simp [hx, hy, hz]
  · simp only [step_ext_sub, ha, hb, set_reg_regs]
    rw [get_flag_update_flags _ _ FLAG_ZERO 0 FLAG_ZERO_eq (by norm_num),
      if_neg (by norm_num), if_pos rfl, if_pos trivial, and_FFFF, Nat.mod_mod,
      Nat.mod_mod, hd16]
    simp
  · simp only [step_ext_sub, ha, hb, set_reg_regs]
    rw [get_flag_update_flags _ _ FLAG_SIGN 1 FLAG_SIGN_eq (by norm_num),
      if_pos rfl, if_pos trivial, and_FFFF, Nat.mod_mod, Nat.mod_mod, hd16,
      and_8000_bne]

theorem sign_extend9_eq (imm9 : Nat) :
    sign_extend9 imm9 = if imm9.testBit 8 then imm9 ||| 0xFE00 else imm9 := by
  rw [sign_extend9, show (0x100 : Nat) = 2 ^ 8 by norm_num, land_two_pow_bne]

theorem sign_extend9_lt (imm9 : Nat) (h9 : imm9 < 2 ^ 9) : sign_extend9 imm9 < 2 ^ 16 := by
  rcases h : imm9.testBit 8 with _ | _ <;> rw [sign_extend9_eq, h]
  · rw [if_neg (by simp)]
    omega
  · rw [if_pos rfl]
    exact Nat.or_lt_two_pow (by omega) (by norm_num)

theorem step_movi_spec (c : CPU) (dst imm9 : Nat) (h9 : imm9 < 2 ^ 9) :
    (step_movi c dst imm9).regs dst =
      (if imm9.testBit 8 then imm9 ||| 0xFE00 else imm9) ∧
    (get_flag (step_movi c dst imm9) FLAG_ZERO = true ↔
      (if imm9.testBit 8 then imm9 ||| 0xFE00 else imm9) = 0) ∧
    (get_flag (step_movi c dst imm9) FLAG_SIGN = true ↔
      (if imm9.testBit 8 then imm9 ||| 0xFE00 else imm9).testBit 15 = true) := by
  have hmod : sign_extend9 imm9 % 2 ^ 16 = sign_extend9 imm9 :=
    Nat.mod_eq_of_lt (sign_extend9_lt imm9 h9)
  refine ⟨?_, ?_, ?_⟩
  · simp only [step_movi, update_flags_regs, set_reg_regs]
    rw [if_pos trivial, hmod, sign_extend9_eq]
  · simp only [step_movi, set_reg_regs]
    rw [get_flag_update_flags _ _ FLAG_ZERO 0 FLAG_ZERO_eq (by norm_num),
      if_neg (by norm_num), if_pos rfl, if_pos trivial, Nat.mod_mod, hmod,
      sign_extend9_eq]
    simp
  · simp only [step_movi, set_reg_regs]
    rw [get_flag_update_flags _ _ FLAG_SIGN 1 FLAG_SIGN_eq (by norm_num),
      if_pos rfl, if_pos trivial, Nat.mod_mod, hmod, and_8000_bne, sign_extend9_eq]

/-! ### Claim theorems -/

/-- C1: for 16-bit register values `a` (in reg1) and `b` (in reg2), executing
`EXT_ADD reg1, reg2` stores `(a + b) mod 2^16` into reg1, sets Carry iff
`a + b > 0xFFFF`, sets Overflow iff `a` and `b` have the same sign bit and the
truncated result's sign bit differs from it, and recomputes Zero and Sign from
the stored 16-bit result. -/
theorem C1_ext_add (s : CPU) (ins : List InEvent) (r1 r2 a b : Nat)
    (hh : s.halted = false)
    (hop : mem_r16 s s.pc >>> 12 &&& 0xF = 0xD)
    (hext : mem_r16 s s.pc >>> 9 &&& 0x7 = 0x3)
    (hr1 : mem_r16 s s.pc >>> 6 &&& 0x7 = r1)
    (hr2 : mem_r16 s s.pc >>> 3 &&& 0x7 = r2)
    (ha : s.regs r1 = a) (hb : s.regs r2 = b)
    (ha16 : a < 2 ^ 16) (hb16 : b < 2 ^ 16) :
    ∃ s2, cpu_step s ins = some (s2, ins, []) ∧
      s2.regs r1 = (a + b) % 2 ^ 16 ∧
      (get_flag s2 FLAG_CARRY = true ↔ 0xFFFF < a + b) ∧
      (get_flag s2 FLAG_OVERFLOW = true ↔
        (a.testBit 15 = b.testBit 15 ∧ ((a + b) % 2 ^ 16).testBit 15 ≠ a.testBit 15)) ∧
      (get_flag s2 FLAG_ZERO = true ↔ (a + b) % 2 ^ 16 = 0) ∧
      (get_flag s2 FLAG_SIGN = true ↔ ((a + b) % 2 ^ 16).testBit 15 = true) := by
  rw [cpu_step_not_halted s ins hh, step_instr_ext _ _ _ hop,
    step_ext_sel_add _ _ _ hext, hr1, hr2]
  exact ⟨_, rfl, step_ext_add_spec _ r1 r2 a b ha hb ha16 hb16⟩

theorem C1_ext_add_witness :
    ∃ s2, cpu_step c1_state [] = some (s2, [], []) ∧
      s2.regs 0 = 0xFFFE ∧ get_flag s2 FLAG_CARRY = false ∧
      get_flag s2 FLAG_OVERFLOW = true ∧ get_flag s2 FLAG_ZERO = false ∧
      get_flag s2 FLAG_SIGN = true := by
  obtain ⟨s2, h1, h2, h3, h4, h5, h6⟩ :=
    C1_ext_add c1_state [] 0 1 0x7FFF 0x7FFF rfl (by decide) (by decide) (by decide)
      (by decide) rfl rfl (by decide) (by decide)
  refine ⟨s2, h1, ?_, ?_, ?_, ?_, ?_⟩
  · rw [h2]
    norm_num
  · cases hc : get_flag s2 FLAG_CARRY
    · rfl
    · exact absurd (h3.mp hc) (by norm_num)
  · exact h4.mpr (by decide)
  · cases hc : get_flag s2 FLAG_ZERO
    · rfl
    · exact absurd (h5.mp hc) (by norm_num)
  · exact h6.mpr (by decide)

/-- C2: for 16-bit register values `a` (in reg1) and `b` (in reg2), executing
`EXT_SUB reg1, reg2` stores `(a - b) mod 2^16` into reg1, sets Carry iff
`a < b` (unsigned), sets Overflow iff `a` and `b` have different sign bits and
the truncated result's sign bit differs from `a`'s, and recomputes Zero and
Sign from the stored result. -/
theorem C2_ext_sub (s : CPU) (ins : List InEvent) (r1 r2 a b : Nat)
    (hh : s.halted = false)
    (hop : mem_r16 s s.pc >>> 12 &&& 0xF = 0xD)
    (hext : mem_r16 s s.pc >>> 9 &&& 0x7 = 0x4)
    (hr1 : mem_r16 s s.pc >>> 6 &&& 0x7 = r1)
    (hr2 : mem_r16 s s.pc >>> 3 &&& 0x7 = r2)
    (ha : s.regs r1 = a) (hb : s.regs r2 = b)
    (ha16 : a < 2 ^ 16) (hb16 : b < 2 ^ 16) :
    ∃ s2, cpu_step s ins = some (s2, ins, []) ∧
      s2.regs r1 = (a + (2 ^ 16 - b)) % 2 ^ 16 ∧
      (get_flag s2 FLAG_CARRY = true ↔ a < b) ∧
      (get_flag s2 FLAG_OVERFLOW = true ↔
        (a.testBit 15 ≠ b.testBit 15 ∧
          ((a + (2 ^ 16 - b)) % 2 ^ 16).testBit 15 ≠ a.testBit 15)) ∧
      (get_flag s2 FLAG_ZERO = true ↔ (a + (2 ^ 16 - b)) % 2 ^ 16 = 0) ∧
      (get_flag s2 FLAG_SIGN = true ↔
        ((a + (2 ^ 16 - b)) % 2 ^ 16).testBit 15 = true) := by
  rw [cpu_step_not_halted s ins hh, step_instr_ext _ _ _ hop,
    step_ext_sel_sub _ _ _ hext, hr1, hr2]
  exact ⟨_, rfl, step_ext_sub_spec _ r1 r2 a b ha hb ha16 hb16⟩

theorem C2_ext_sub_witness :
    ∃ s2, cpu_step c2_state [] = some (s2, [], []) ∧
      s2.regs 0 = 0xFFFB ∧ get_flag s2 FLAG_CARRY = true ∧
      get_flag s2 FLAG_OVERFLOW = false ∧ get_flag s2 FLAG_ZERO = false ∧
      get_flag s2 FLAG_SIGN = true := by
  obtain ⟨s2, h1, h2, h3, h4, h5, h6⟩ :=
    C2_ext_sub c2_state [] 0 1 5 10 rfl (by decide) (by decide) (by decide)
      (by decide) rfl rfl (by decide) (by decide)
  refine ⟨s2, h1, ?_, ?_, ?_, ?_, ?_⟩
  · rw [h2]
    norm_num
  · exact h3.mpr (by norm_num)
  · cases hc : get_flag s2 FLAG_OVERFLOW
    · rfl
    · have := h4.mp hc
      revert this
      decide
  · cases hc : get_flag s2 FLAG_ZERO
    · rfl
    · exact absurd (h5.mp hc) (by norm_num)
  · exact h6.mpr (by decide)

/-- C5: executing `MOVI r, imm9` stores into register `r` the immediate
sign-extended from 9 to 16 bits (if bit 8 is set, `imm9 OR 0xFE00`, otherwise
`imm9`), and updates Zero and Sign from that result. -/
theorem C5_movi (s : CPU) (ins : List InEvent) (dst imm9 : Nat)
    (hh : s.halted = false)
    (hop : mem_r16 s s.pc >>> 12 &&& 0xF = 0x3)
    (hdst : mem_r16 s s.pc >>> 9 &&& 0x7 = dst)
    (himm : mem_r16 s s.pc &&& 0x1FF = imm9) :
    ∃ s2, cpu_step s ins = some (s2, ins, []) ∧
      s2.regs dst = (if imm9.testBit 8 then imm9 ||| 0xFE00 else imm9) ∧
      (get_flag s2 FLAG_ZERO = true ↔
        (if imm9.testBit 8 then imm9 ||| 0xFE00 else imm9) = 0) ∧
      (get_flag s2 FLAG_SIGN = true ↔
        (if imm9.testBit 8 then imm9 ||| 0xFE00 else imm9).testBit 15 = true) := by
  have h9 : imm9 < 2 ^ 9 := by
    rw [← himm, and_1FF]
    exact Nat.mod_lt _ (by norm_num)
  rw [cpu_step_not_halted s ins hh, step_instr_movi _ _ _ hop, hdst, himm]
  exact ⟨_, rfl, step_movi_spec _ dst imm9 h9⟩

theorem C5_movi_witness :
    (∃ s2, cpu_step c5_state [] = some (s2, [], []) ∧ s2.regs 0 = 0xFFFF) ∧
    (∃ s2, cpu_step c5b_state [] = some (s2, [], []) ∧ s2.regs 0 = 0x00FF) := by
  constructor
  · obtain ⟨s2, h1, h2, h3, h4⟩ :=
      C5_movi c5_state [] 0 0x1FF rfl (by decide) (by decide) (by decide)
    exact ⟨s2, h1, by rw [h2]; decide⟩
  · obtain ⟨s2, h1, h2, h3, h4⟩ :=
      C5_movi c5b_state [] 0 0x0FF rfl (by decide) (by decide) (by decide)
    exact ⟨s2, h1, by rw [h2]; decide⟩

/-- C7: executing one step whose fetched instruction has a top-level opcode
nibble outside 0x0–0xD sets `halted` and emits the diagnostic with the opcode
and the fetch address, leaving registers, flags, stack pointer and memory
unchanged (only the program counter advances past the instruction). -/
theorem C7_unknown_opcode (s : CPU) (ins : List InEvent)
    (hh : s.halted = false) (hpc : s.pc < 2 ^ 32)
    (hop : 0xD < mem_r16 s s.pc >>> 12 &&& 0xF) :
    cpu_step s ins =
      some ({ s with pc := (s.pc + 2) % 2 ^ 32, halted := true },
        ins, [Output.unknownOp (mem_r16 s s.pc >>> 12 &&& 0xF) s.pc]) := by
  rw [cpu_step_not_halted s ins hh, step_instr_unknown _ _ _ hop]
  have hsub : sub32 ((s.pc + 2) % 2 ^ 32) 2 = s.pc := by
    rw [sub32]; omega
  rw [hsub]

theorem C7_unknown_opcode_witness :
    cpu_step c7_state [] =
      some ({ c7_state with pc := 2, halted := true }, [], [Output.unknownOp 0xE 0]) :=
  (C7_unknown_opcode c7_state [] rfl (by decide) (by decide)).trans (by rfl)

/-- C8: in every state with `halted = true`, `cpu_step` performs no fetch and
returns the state unchanged with no output — the Halted state is absorbing. -/
theorem C8_halted_absorbing (s : CPU) (ins : List InEvent) (h : s.halted = true) :
    cpu_step s ins = some (s, ins, []) := cpu_step_halted_eq s ins h

theorem C8_halted_absorbing_witness :
    cpu_step c8_state [] = some (c8_state, [], []) :=
  C8_halted_absorbing c8_state [] rfl

/-- C9: for every 16-bit value `v` and every address (including ones whose
second byte wraps past the top of the 2^20-byte memory), `mem_w16` followed by
`mem_r16` at the same address returns `v`. -/
theorem C9_w16_r16_roundtrip (c : CPU) (addr v : Nat) (hv : v < 2 ^ 16) :
    mem_r16 (mem_w16 c addr v) addr = v := mem_r16_mem_w16 c addr v hv

theorem C9_w16_r16_roundtrip_witness :
    mem_r16 (mem_w16 cpu_create 0xFFFFF 0xABCD) 0xFFFFF = 0xABCD :=
  C9_w16_r16_roundtrip cpu_create 0xFFFFF 0xABCD (by norm_num)

/-- C10: the extended-opcode field is 3 bits and all eight values are handled,
so for every instruction whose top-level opcode is EXT (0xD) the step succeeds
with no diagnostic and does not halt the machine: the unknown-extended-opcode
branch is unreachable. -/
theorem C10_ext_no_unknown (s : CPU) (ins : List InEvent)
    (hh : s.halted = false)
    (hop : mem_r16 s s.pc >>> 12 &&& 0xF = 0xD) :
    ∃ s2, cpu_step s ins = some (s2, ins, []) ∧ s2.halted = false := by
  rw [cpu_step_not_halted s ins hh, step_instr_ext _ _ _ hop]
  have h8 : mem_r16 s s.pc >>> 9 &&& 0x7 ≤ 7 := Nat.and_le_right
  rcases show mem_r16 s s.pc >>> 9 &&& 0x7 = 0 ∨ mem_r16 s s.pc >>> 9 &&& 0x7 = 1 ∨
      mem_r16 s s.pc >>> 9 &&& 0x7 = 2 ∨ mem_r16 s s.pc >>> 9 &&& 0x7 = 3 ∨
      mem_r16 s s.pc >>> 9 &&& 0x7 = 4 ∨ mem_r16 s s.pc >>> 9 &&& 0x7 = 5 ∨
      mem_r16 s s.pc >>> 9 &&& 0x7 = 6 ∨ mem_r16 s s.pc >>> 9 &&& 0x7 = 7 by omega
    with he | he | he | he | he | he | he | he
  · rw [step_ext_sel_ret _ _ _ he]
    exact ⟨_, rfl, by simp [hh]⟩
  · rw [step_ext_sel_load _ _ _ he]
    exact ⟨_, rfl, by simp [hh]⟩
  · rw [step_ext_sel_store _ _ _ he]
    exact ⟨_, rfl, by simp [hh]⟩
  · rw [step_ext_sel_add _ _ _ he]
    exact ⟨_, rfl, by simp [hh]⟩
  · rw [step_ext_sel_sub _ _ _ he]
    exact ⟨_, rfl, by simp [hh]⟩
  · rw [step_ext_sel_and _ _ _ he]
    exact ⟨_, rfl, by simp [hh]⟩
  · rw [step_ext_sel_or _ _ _ he]
    exact ⟨_, rfl, by simp [hh]⟩
  · rw [step_ext_sel_xor _ _ _ he]
    exact ⟨_, rfl, by simp [hh]⟩

theorem C10_ext_no_unknown_witness :
    ∃ s2, cpu_step c10_state [] = some (s2, [], []) ∧ s2.halted = false :=
  C10_ext_no_unknown c10_state [] rfl (by decide)

theorem call_mem_read (s1 : CPU) (dst b : Nat) :
    mem_r16 { step_call s1 dst with pc := ((step_call s1 dst).pc + 2) % 2 ^ 32 } b =
      mem_r16 (mem_w16 (mem_w16 s1 (sub32 s1.sp 2) (s1.pc &&& 0xFFFF))
        (sub32 (sub32 s1.sp 2) 2) (s1.pc >>> 16 &&& 0xF)) b := by
  apply mem_r16_of_mem_eq
  have h0 : ({ step_call s1 dst with pc := ((step_call s1 dst).pc + 2) % 2 ^ 32 } : CPU).mem
      = (step_call s1 dst).mem := by simp
  rw [h0, step_call_mem]

/-- C3: a CALL pushes the post-CALL program counter as two 16-bit stack words
(low 16 bits first, then the high 4 bits), and EXT_RET executed at the target
pops them in the inverse order, so the program counter is restored to the
instruction immediately after the CALL (its address in the 20-bit space), for
CALL fetch addresses up to 2^20 - 1. -/
theorem C3_call_ret (s : CPU) (ins : List InEvent) (s2 : CPU)
    (hh : s.halted = false) (hpc : s.pc < 2 ^ 20)
    (hop : mem_r16 s s.pc >>> 12 &&& 0xF = 0xA)
    (h1 : cpu_step s ins = some (s2, ins, []))
    (hro : mem_r16 s2 s2.pc >>> 12 &&& 0xF = 0xD)
    (hre : mem_r16 s2 s2.pc >>> 9 &&& 0x7 = 0x0) :
    ∃ s3, cpu_step s2 ins = some (s3, ins, []) ∧ s3.pc = (s.pc + 2) % 2 ^ 20 := by
  rw [cpu_step_not_halted s ins hh, step_instr_call _ _ _ hop] at h1
  have hs2 : step_call { s with pc := (s.pc + 2) % 2 ^ 32 }
      (mem_r16 s s.pc >>> 9 &&& 0x7) = s2 := by
    exact congrArg Prod.fst (Option.some.inj h1)
  subst hs2
  have hh2 : (step_call { s with pc := (s.pc + 2) % 2 ^ 32 }
      (mem_r16 s s.pc >>> 9 &&& 0x7)).halted = false := by
    simp [hh]
  rw [cpu_step_not_halted _ ins hh2, step_instr_ext _ _ _ hro,
    step_ext_sel_ret _ _ _ hre]
  refine ⟨_, rfl, ?_⟩
  rw [step_ext_ret_pc, call_mem_read, call_mem_read]
  simp only [step_call_sp, set_reg_sp]
  have hB2 : (sub32 (sub32 s.sp 2) 2 + 2) % 2 ^ 32 = sub32 s.sp 2 := by
    simp only [sub32]
    omega
  rw [hB2]
  have hvlt : ((s.pc + 2) % 2 ^ 32) >>> 16 &&& 0xF < 2 ^ 16 := by
    have := Nat.and_le_right (n := ((s.pc + 2) % 2 ^ 32) >>> 16) (m := 0xF)
    omega
  have hlvlt : (s.pc + 2) % 2 ^ 32 &&& 0xFFFF < 2 ^ 16 := by
    rw [and_FFFF]
    exact Nat.mod_lt _ (by norm_num)
  rw [mem_r16_mem_w16 _ _ _ hvlt,
    mem_r16_mem_w16_ne _ _ _ _ (by simp only [sub32]; omega) (by simp only [sub32]; omega)
      (by simp only [sub32]; omega) (by simp only [sub32]; omega),
    mem_r16_mem_w16 _ _ _ hlvlt, Nat.and_assoc,
    show (0xF : Nat) &&& 0xF = 0xF from rfl, recompose20]
  omega

theorem C3_call_ret_witness :
    ∃ s3, cpu_step (after_step c3_state []) [] = some (s3, [], []) ∧
      s3.pc = (c3_state.pc + 2) % 2 ^ 20 :=
  C3_call_ret c3_state [] (after_step c3_state []) rfl (by decide) (by decide)
    (by rfl) (by decide) (by decide)

/-! ### pc and sp projections of the remaining step helpers -/

@[simp] theorem step_mov_pc (c : CPU) (d sr : Nat) : (step_mov c d sr).pc = c.pc := by
  simp [step_mov]

@[simp] theorem step_mov_sp (c : CPU) (d sr : Nat) : (step_mov c d sr).sp = c.sp := by
  simp [step_mov]

@[simp] theorem step_movi_pc (c : CPU) (d i : Nat) : (step_movi c d i).pc = c.pc := by
  simp [step_movi]

@[simp] theorem step_movi_sp (c : CPU) (d i : Nat) : (step_movi c d i).sp = c.sp := by
  simp [step_movi]

@[simp] theorem step_cmp_pc (c : CPU) (d sr : Nat) : (step_cmp c d sr).pc = c.pc := by
  simp [step_cmp]

@[simp] theorem step_cmp_sp (c : CPU) (d sr : Nat) : (step_cmp c d sr).sp = c.sp := by
  simp [step_cmp]

@[simp] theorem step_pop_pc (c : CPU) (d : Nat) : (step_pop c d).pc = c.pc := by
  simp [step_pop, stack_pop16]

@[simp] theorem step_pop_sp (c : CPU) (d : Nat) :
    (step_pop c d).sp = (c.sp + 2) % 2 ^ 32 := by
  simp [step_pop, stack_pop16]

@[simp] theorem step_stdin_num_pc (c : CPU) (sr : Nat) (v : Int) :
    (step_stdin_num c sr v).pc = c.pc := by
  simp [step_stdin_num]

@[simp] theorem step_stdin_num_sp (c : CPU) (sr : Nat) (v : Int) :
    (step_stdin_num c sr v).sp = c.sp := by
  simp [step_stdin_num]

@[simp] theorem step_ext_add_pc (c : CPU) (r1 r2 : Nat) :
    (step_ext_add c r1 r2).pc = c.pc := by
  simp [step_ext_add]

@[simp] theorem step_ext_add_sp (c : CPU) (r1 r2 : Nat) :
    (step_ext_add c r1 r2).sp = c.sp := by
  simp [step_ext_add]

@[simp] theorem step_ext_sub_pc (c : CPU) (r1 r2 : Nat) :
    (step_ext_sub c r1 r2).pc = c.pc := by
  simp [step_ext_sub]

@[simp] theorem step_ext_sub_sp (c : CPU) (r1 r2 : Nat) :
    (step_ext_sub c r1 r2).sp = c.sp := by
  simp [step_ext_sub]

@[simp] theorem step_ext_and_pc (c : CPU) (r1 r2 : Nat) :
    (step_ext_and c r1 r2).pc = c.pc := by
  simp [step_ext_and]

@[simp] theorem step_ext_and_sp (c : CPU) (r1 r2 : Nat) :
    (step_ext_and c r1 r2).sp = c.sp := by
  simp [step_ext_and]

@[simp] theorem step_ext_or_pc (c : CPU) (r1 r2 : Nat) :
    (step_ext_or c r1 r2).pc = c.pc := by
  simp [step_ext_or]

@[simp] theorem step_ext_or_sp (c : CPU) (r1 r2 : Nat) :
    (step_ext_or c r1 r2).sp = c.sp := by
  simp [step_ext_or]

@[simp] theorem step_ext_xor_pc (c : CPU) (r1 r2 : Nat) :
    (step_ext_xor c r1 r2).pc = c.pc := by
  simp [step_ext_xor]

@[simp] theorem step_ext_xor_sp (c : CPU) (r1 r2 : Nat) :
    (step_ext_xor c r1 r2).sp = c.sp := by
  simp [step_ext_xor]

@[simp] theorem step_ext_load_pc (c : CPU) (r1 r2 : Nat) :
    (step_ext_load c r1 r2).pc = c.pc := by
  simp [step_ext_load]

@[simp] theorem step_ext_load_sp (c : CPU) (r1 r2 : Nat) :
    (step_ext_load c r1 r2).sp = c.sp := by
  simp [step_ext_load]

@[simp] theorem step_ext_store_pc (c : CPU) (r1 r2 : Nat) :
    (step_ext_store c r1 r2).pc = c.pc := by
  simp [step_ext_store]

@[simp] theorem step_ext_store_sp (c : CPU) (r1 r2 : Nat) :
    (step_ext_store c r1 r2).sp = c.sp := by
  simp [step_ext_store]

@[simp] theorem step_ext_ret_sp (c : CPU) :
    (step_ext_ret c).sp = ((c.sp + 2) % 2 ^ 32 + 2) % 2 ^ 32 := by
  simp [step_ext_ret, stack_pop16]

theorem ret_pc_lt (c : CPU) : (step_ext_ret c).pc < 2 ^ 32 := by
  rw [step_ext_ret_pc]
  apply Nat.or_lt_two_pow
  · rw [Nat.shiftLeft_eq]
    have := Nat.and_le_right (n := mem_r16 c c.sp) (m := 0xF)
    omega
  · have := mem_r16_lt c ((c.sp + 2) % 2 ^ 32)
    omega

theorem addr_mask_lt32 (x : Nat) : x &&& ADDR_MASK < 2 ^ 32 := by
  have := Nat.and_le_right (n := x) (m := ADDR_MASK)
  have : ADDR_MASK < 2 ^ 32 := by norm_num [ADDR_MASK]
  omega

/-! ### Bounds preservation of one step -/

theorem step_stdout_bounds (c : CPU) (d sr : Nat) (ins : List InEvent)
    (c2 : CPU) (i2 : List InEvent) (out : List Output)
    (hpc : c.pc < 2 ^ 32) (hsp : c.sp < 2 ^ 32)
    (h : step_stdout c d sr ins = some (c2, i2, out)) :
    c2.pc < 2 ^ 32 ∧ c2.sp < 2 ^ 32 := by
  rw [step_stdout] at h
  split_ifs at h
  · rcases hm : cstr_scan c.mem c.pc STRFUEL with _ | bs <;> rw [hm] at h
    · cases h
    · obtain rfl := (congrArg Prod.fst (Option.some.inj h)).symm
      constructor
      · simp only [CPU.pc]
        split <;> exact mod32_lt _
      · simpa using hsp
  · obtain rfl := (congrArg Prod.fst (Option.some.inj h)).symm
    exact ⟨hpc, hsp⟩
  · rcases hm : cstr_scan c.mem (c.regs sr &&& ADDR_MASK) STRFUEL with _ | bs <;>
      rw [hm] at h
    · cases h
    · obtain rfl := (congrArg Prod.fst (Option.some.inj h)).symm
      exact ⟨hpc, hsp⟩
  · obtain rfl := (congrArg Prod.fst (Option.some.inj h)).symm
    exact ⟨hpc, hsp⟩
  · obtain rfl := (congrArg Prod.fst (Option.some.inj h)).symm
    exact ⟨hpc, hsp⟩

theorem step_stdin_bounds (c : CPU) (d sr : Nat) (ins : List InEvent)
    (c2 : CPU) (i2 : List InEvent) (out : List Output)
    (hpc : c.pc < 2 ^ 32) (hsp : c.sp < 2 ^ 32)
    (h : step_stdin c d sr ins = some (c2, i2, out)) :
    c2.pc < 2 ^ 32 ∧ c2.sp < 2 ^ 32 := by
  rcases ins with _ | ⟨e, rest⟩
  · simp only [step_stdin] at h
    split_ifs at h <;>
      obtain rfl := (congrArg Prod.fst (Option.some.inj h)).symm <;> exact ⟨hpc, hsp⟩
  · rcases e with bs | v | _
    · simp only [step_stdin] at h
      split_ifs at h
      · rcases hm : strcpy_mem c.mem (c.regs sr &&& ADDR_MASK) (trim_newline bs)
            with _ | m <;> rw [hm] at h
        · cases h
        · obtain rfl := (congrArg Prod.fst (Option.some.inj h)).symm
          exact ⟨hpc, hsp⟩
      · obtain rfl := (congrArg Prod.fst (Option.some.inj h)).symm
        exact ⟨hpc, hsp⟩
    · simp only [step_stdin] at h
      split_ifs at h <;> obtain rfl := (congrArg Prod.fst (Option.some.inj h)).symm
      · exact ⟨hpc, hsp⟩
      · exact ⟨by simpa using hpc, by simpa using hsp⟩
    · simp only [step_stdin] at h
      split_ifs at h <;> obtain rfl := (congrArg Prod.fst (Option.some.inj h)).symm <;>
        exact ⟨hpc, hsp⟩

theorem step_ext_bounds (c : CPU) (instr : Nat) (ins : List InEvent)
    (c2 : CPU) (i2 : List InEvent) (out : List Output)
    (hpc : c.pc < 2 ^ 32) (hsp : c.sp < 2 ^ 32)
    (h : step_ext c instr ins = some (c2, i2, out)) :
    c2.pc < 2 ^ 32 ∧ c2.sp < 2 ^ 32 := by
  rw [step_ext] at h
  split_ifs at h <;> obtain rfl := (congrArg Prod.fst (Option.some.inj h)).symm
  · exact ⟨by simpa using hpc, by simpa using hsp⟩
  · exact ⟨by simpa using hpc, by simpa using hsp⟩
  · exact ⟨by simpa using hpc, by simpa using hsp⟩
  · exact ⟨by simpa using hpc, by simpa using hsp⟩
  · exact ⟨by simpa using hpc, by simpa using hsp⟩
  · exact ⟨ret_pc_lt c, by simpa using mod32_lt _⟩
  · exact ⟨by simpa using hpc, by simpa using hsp⟩
  · exact ⟨by simpa using hpc, by simpa using hsp⟩
  · exact ⟨by simpa using hpc, by simpa using hsp⟩

theorem step_instr_halt (c : CPU) (instr : Nat) (ins : List InEvent)
    (h : instr >>> 12 &&& 0xF = 0x0) :
    step_instr c instr ins =
      some ({ c with halted := true }, ins, [Output.haltMsg (sub32 c.pc 2)]) := by
  simp [step_instr, h]

theorem step_instr_nop (c : CPU) (instr : Nat) (ins : List InEvent)
    (h : instr >>> 12 &&& 0xF = 0x1) :
    step_instr c instr ins = some (c, ins, []) := by
  simp [step_instr, h]

theorem step_instr_mov (c : CPU) (instr : Nat) (ins : List InEvent)
    (h : instr >>> 12 &&& 0xF = 0x2) :
    step_instr c instr ins =
      some (step_mov c (instr >>> 9 &&& 0x7) (instr >>> 6 &&& 0x7), ins, []) := by
  simp [step_instr, h]

theorem step_instr_cmp (c : CPU) (instr : Nat) (ins : List InEvent)
    (h : instr >>> 12 &&& 0xF = 0x4) :
    step_instr c instr ins =
      some (step_cmp c (instr >>> 9 &&& 0x7) (instr >>> 6 &&& 0x7), ins, []) := by
  simp [step_instr, h]

theorem step_instr_jmp (c : CPU) (instr : Nat) (ins : List InEvent)
    (h : instr >>> 12 &&& 0xF = 0x5) :
    step_instr c instr ins =
      some ({ c with pc := c.regs (instr >>> 9 &&& 0x7) &&& ADDR_MASK }, ins, []) := by
  simp [step_instr, h]

theorem step_instr_jz (c : CPU) (instr : Nat) (ins : List InEvent)
    (h : instr >>> 12 &&& 0xF = 0x6) :
    step_instr c instr ins =
      some ((if get_flag c FLAG_ZERO then
        { c with pc := c.regs (instr >>> 9 &&& 0x7) &&& ADDR_MASK } else c), ins, []) := by
  simp [step_instr, h]

theorem step_instr_jnz (c : CPU) (instr : Nat) (ins : List InEvent)
    (h : instr >>> 12 &&& 0xF = 0x7) :
    step_instr c instr ins =
      some ((if get_flag c FLAG_ZERO then c else
        { c with pc := c.regs (instr >>> 9 &&& 0x7) &&& ADDR_MASK }), ins, []) := by
  simp [step_instr, h]

theorem step_instr_push (c : CPU) (instr : Nat) (ins : List InEvent)
    (h : instr >>> 12 &&& 0xF = 0x8) :
    step_instr c instr ins =
      some (stack_push16 c (c.regs (instr >>> 9 &&& 0x7)), ins, []) := by
  simp [step_instr, h]

theorem step_instr_pop (c : CPU) (instr : Nat) (ins : List InEvent)
    (h : instr >>> 12 &&& 0xF = 0x9) :
    step_instr c instr ins = some (step_pop c (instr >>> 9 &&& 0x7), ins, []) := by
  simp [step_instr, h]

theorem step_instr_stdout (c : CPU) (instr : Nat) (ins : List InEvent)
    (h : instr >>> 12 &&& 0xF = 0xB) :
    step_instr c instr ins =
      step_stdout c (instr >>> 9 &&& 0x7) (instr >>> 6 &&& 0x7) ins := by
  simp [step_instr, h]

theorem step_instr_stdin (c : CPU) (instr : Nat) (ins : List InEvent)
    (h : instr >>> 12 &&& 0xF = 0xC) :
    step_instr c instr ins =
      step_stdin c (instr >>> 9 &&& 0x7) (instr >>> 6 &&& 0x7) ins := by
  simp [step_instr, h]

theorem step_instr_bounds (c : CPU) (instr : Nat) (ins : List InEvent)
    (c2 : CPU) (i2 : List InEvent) (out : List Output)
    (hpc : c.pc < 2 ^ 32) (hsp : c.sp < 2 ^ 32)
    (h : step_instr c instr ins = some (c2, i2, out)) :
    c2.pc < 2 ^ 32 ∧ c2.sp < 2 ^ 32 := by
  have h16 : instr >>> 12 &&& 0xF ≤ 15 := Nat.and_le_right
  rcases show instr >>> 12 &&& 0xF = 0 ∨ instr >>> 12 &&& 0xF = 1 ∨
      instr >>> 12 &&& 0xF = 2 ∨ instr >>> 12 &&& 0xF = 3 ∨
      instr >>> 12 &&& 0xF = 4 ∨ instr >>> 12 &&& 0xF = 5 ∨
      instr >>> 12 &&& 0xF = 6 ∨ instr >>> 12 &&& 0xF = 7 ∨
      instr >>> 12 &&& 0xF = 8 ∨ instr >>> 12 &&& 0xF = 9 ∨
      instr >>> 12 &&& 0xF = 10 ∨ instr >>> 12 &&& 0xF = 11 ∨
      instr >>> 12 &&& 0xF = 12 ∨ instr >>> 12 &&& 0xF = 13 ∨
      13 < instr >>> 12 &&& 0xF by omega with
    ho | ho | ho | ho | ho | ho | ho | ho | ho | ho | ho | ho | ho | ho | ho
  · rw [step_instr_halt _ _ _ ho] at h
    obtain rfl := (congrArg Prod.fst (Option.some.inj h)).symm
    exact ⟨by simpa using hpc, by simpa using hsp⟩
  · rw [step_instr_nop _ _ _ ho] at h
    obtain rfl := (congrArg Prod.fst (Option.some.inj h)).symm
    exact ⟨hpc, hsp⟩
  · rw [step_instr_mov _ _ _ ho] at h
    obtain rfl := (congrArg Prod.fst (Option.some.inj h)).symm
    exact ⟨by simpa using hpc, by simpa using hsp⟩
  · rw [step_instr_movi _ _ _ ho] at h
    obtain rfl := (congrArg Prod.fst (Option.some.inj h)).symm
    exact ⟨by simpa using hpc, by simpa using hsp⟩
  · rw [step_instr_cmp _ _ _ ho] at h
    obtain rfl := (congrArg Prod.fst (Option.some.inj h)).symm
    exact ⟨by simpa using hpc, by simpa using hsp⟩
  · rw [step_instr_jmp _ _ _ ho] at h
    obtain rfl := (congrArg Prod.fst (Option.some.inj h)).symm
    exact ⟨by simpa using addr_mask_lt32 _, by simpa using hsp⟩
  · rw [step_instr_jz _ _ _ ho] at h
    obtain rfl := (congrArg Prod.fst (Option.some.inj h)).symm
    rcases hgf : get_flag c FLAG_ZERO
    · exact ⟨by simpa [hgf] using hpc, by simpa [hgf] using hsp⟩
    · exact ⟨by simpa [hgf] using addr_mask_lt32 (c.regs (instr >>> 9 &&& 0x7)),
        by simpa [hgf] using hsp⟩
  · rw [step_instr_jnz _ _ _ ho] at h
    obtain rfl := (congrArg Prod.fst (Option.some.inj h)).symm
    rcases hgf : get_flag c FLAG_ZERO
    · exact ⟨by simpa [hgf] using addr_mask_lt32 (c.regs (instr >>> 9 &&& 0x7)),
        by simpa [hgf] using hsp⟩
    · exact ⟨by simpa [hgf] using hpc, by simpa [hgf] using hsp⟩
  · rw [step_instr_push _ _ _ ho] at h
    obtain rfl := (congrArg Prod.fst (Option.some.inj h)).symm
    exact ⟨by simpa using hpc, by simpa using sub32_lt _ _⟩
  · rw [step_instr_pop _ _ _ ho] at h
    obtain rfl := (congrArg Prod.fst (Option.some.inj h)).symm
    exact ⟨by simpa using hpc, by simpa using mod32_lt _⟩
  · rw [step_instr_call _ _ _ ho] at h
    obtain rfl := (congrArg Prod.fst (Option.some.inj h)).symm
    exact ⟨by simpa using addr_mask_lt32 _, by simpa using sub32_lt _ _⟩
  · rw [step_instr_stdout _ _ _ ho] at h
    exact step_stdout_bounds _ _ _ _ _ _ _ hpc hsp h
  · rw [step_instr_stdin _ _ _ ho] at h
    exact step_stdin_bounds _ _ _ _ _ _ _ hpc hsp h
  · rw [step_instr_ext _ _ _ ho] at h
    exact step_ext_bounds _ _ _ _ _ _ hpc hsp h
  · rw [step_instr_unknown _ _ _ ho] at h
    obtain rfl := (congrArg Prod.fst (Option.some.inj h)).symm
    exact ⟨by simpa using hpc, by simpa using hsp⟩

theorem cpu_step_bounds (c : CPU) (ins : List InEvent)
    (c2 : CPU) (i2 : List InEvent) (out : List Output)
    (hpc : c.pc < 2 ^ 32) (hsp : c.sp < 2 ^ 32)
    (h : cpu_step c ins = some (c2, i2, out)) :
    c2.pc < 2 ^ 32 ∧ c2.sp < 2 ^ 32 := by
  rw [cpu_step] at h
  split_ifs at h
  · obtain rfl := (congrArg Prod.fst (Option.some.inj h)).symm
    exact ⟨hpc, hsp⟩
  · exact step_instr_bounds _ _ _ _ _ _ (by simpa using mod32_lt _) (by simpa using hsp) h

theorem reach_bounds (c0 : CPU) (i0 : List InEvent) (c : CPU) (i : List InEvent)
    (h : Reach c0 i0 c i) :
    c0.pc < 2 ^ 32 → c0.sp < 2 ^ 32 → c.pc < 2 ^ 32 ∧ c.sp < 2 ^ 32 := by
  induction h with
  | refl c ins => exact fun h1 h2 => ⟨h1, h2⟩
  | step hstep hr ih =>
    intro h1 h2
    obtain ⟨h3, h4⟩ := cpu_step_bounds _ _ _ _ _ h1 h2 hstep
    exact ih h3 h4

/-- C4 counterexample: from the reset state loaded with the one-instruction
program `POP R0`, a single step moves the stack pointer from
`MEMORY_SIZE - 2` to `2^20`, outside `[0, 2^20)`: the code advances `pc` and
moves `sp` in plain `uint32_t` arithmetic with no 20-bit wrap of the stored
value. -/
theorem C4_counterexample :
    ¬ (∀ (c : CPU) (i : List InEvent), Reach (loaded c4_prog) [] c i →
        c.pc < 2 ^ 20 ∧ c.sp < 2 ^ 20) := by
  intro hclaim
  have hstep : cpu_step (loaded c4_prog) [] =
      some (after_step (loaded c4_prog) [], [], []) := by rfl
  have hreach : Reach (loaded c4_prog) [] (after_step (loaded c4_prog) []) [] :=
    Reach.step hstep (Reach.refl _ _)
  have hsp : (after_step (loaded c4_prog) []).sp = 2 ^ 20 := by rfl
  have := (hclaim _ _ hreach).2
  omega

/-- C4 (amended): along every run from a loaded reset state, the program
counter and the stack pointer remain within the `uint32_t` range `[0, 2^32)`;
they are reduced modulo 2^20 at each memory access, but the stored values
themselves are not wrapped into the 20-bit space (a fetch at the top of memory
advances `pc` to 2^20, and a pop at the top of memory moves `sp` to 2^20). -/
theorem C4_pc_sp_uint32 (prog : Nat → Nat) (i0 : List InEvent) (c : CPU)
    (i : List InEvent) (h : Reach (loaded prog) i0 c i) :
    c.pc < 2 ^ 32 ∧ c.sp < 2 ^ 32 := by
  refine reach_bounds _ _ _ _ h ?_ ?_
  · show (0 : Nat) < 2 ^ 32
    norm_num
  · show MEMORY_SIZE - 2 < 2 ^ 32
    norm_num [MEMORY_SIZE]

theorem C4_pc_sp_uint32_witness :
    (loaded c4_prog).pc < 2 ^ 32 ∧ (loaded c4_prog).sp < 2 ^ 32 :=
  C4_pc_sp_uint32 c4_prog [] (loaded c4_prog) [] (Reach.refl _ _)

/-- C6 counterexample: at `c6_state` the STDOUT string instruction starts its
terminator scan at address 0xFFFFF (the top byte of memory, nonzero); the
code's scan leaves the array at offset 2^20 — an out-of-bounds raw-pointer
read, undefined behavior — instead of continuing from address 0, while the
wrap-around scan asserted by the claim terminates and yields the single
byte 65. -/
theorem C6_counterexample :
    cpu_step c6_state [] = none ∧
    cstr_scan c6_state.mem 0xFFFFF STRFUEL = none ∧
    wrap_scan c6_state.mem 0xFFFFF STRFUEL = some [65] :=
  ⟨by rfl, by rfl, by rfl⟩

/-- C6 (amended): the STDOUT terminator scan reads bytes at linearly
increasing, unreduced addresses `a`, `a + 1`, …: when it succeeds, every
address it touched (terminator included) lies below `MEMORY_SIZE` with no
modulo reduction, the i-th byte produced is `mem (a + i)`, and the terminator
is at `a + length`; a scan that reaches address `MEMORY_SIZE` before a
terminator is an out-of-bounds access (`none`), not a wrap-around to
address 0. -/
theorem C6_scan_linear (mem : Nat → Nat) (a fuel : Nat) (bs : List Nat)
    (h : cstr_scan mem a fuel = some bs) :
    a + bs.length < MEMORY_SIZE ∧
    (∀ i, i < bs.length → bs.getD i 0 = mem (a + i) ∧ mem (a + i) ≠ 0) ∧
    mem (a + bs.length) = 0 := by
  induction fuel generalizing a bs with
  | zero => simp [cstr_scan] at h
  | succ fuel ih =>
    rw [cstr_scan] at h
    split_ifs at h with hlt hz
    · injection h with h2
      subst h2
      exact ⟨by simpa using hlt, by simp, by simpa using hz⟩
    · rcases hm : cstr_scan mem (a + 1) fuel with _ | bs2 <;> rw [hm] at h
      · simp at h
      · injection h with h2
        subst h2
        obtain ⟨ih1, ih2, ih3⟩ := ih (a + 1) bs2 hm
        refine ⟨by simp only [List.length_cons]; omega, ?_, ?_⟩
        · intro i hi
          rcases i with _ | j
          · exact ⟨by simp, by simpa using hz⟩
          · have hj : j < bs2.length := by
              simpa using hi
            obtain ⟨e1, e2⟩ := ih2 j hj
            constructor
            · simpa [Nat.add_assoc, Nat.add_comm 1 j] using e1
            · have : a + (j + 1) = a + 1 + j := by omega
              rw [this]
              exact e2
        · have : a + (mem a :: bs2).length = a + 1 + bs2.length := by
            simp only [List.length_cons]
            omega
          rw [this]
          exact ih3

theorem C6_scan_linear_witness :
    5 + [65, 66].length < MEMORY_SIZE ∧
    (∀ i, i < [65, 66].length →
      [65, 66].getD i 0 = c6_mem (5 + i) ∧ c6_mem (5 + i) ≠ 0) ∧
    c6_mem (5 + [65, 66].length) = 0 :=
  C6_scan_linear c6_mem 5 STRFUEL [65, 66] (by rfl)

end VM
